import Mathlib

/-!
Verification of the it-workload-tracker core engine: the work-item row codec,
the clear-then-write table sync engine, and the ticket-CSV classifier.

The definitions below are a shallow embedding of the TypeScript source:

* `src/services/googleSheetsService.ts` (src/unnamed/part_001):
  `syncWorkloadItems`, `loadWorkloadItems`, `getSheetNameForBucket`;
* `src/ui/App.tsx`: `parseCsv`, `importTicketsCsv`, `updateItem`.

Modelling conventions:

* JS strings are `String`, JS `undefined`-able fields are `Option _`.
* JS numbers are modelled as `Rat` where only finite comparisons matter
  (`Number(...)` in the CSV classifier) and as `Int` where the source only
  ever produces integral values (`parseInt`, `progress`).  `NaN` and the
  infinities are represented by `none` of `Option`, which conflates JS
  `undefined` and `NaN`; the conflation is observable only on inputs no
  claim touches (re-encoding a NaN progress).
* `JSON.stringify` / `JSON.parse` of the work-session list are embedded as
  an executable serializer and recursive-descent parser for the JSON
  fragment the source produces (arrays of flat string-valued objects).
  The parser is stricter than a full JSON parser (it rejects whitespace,
  numbers and nested values, which `JSON.stringify` never emits for this
  data); rejected cells take the same recovery path as a JS parse error.
* Remote effects (Sheets API calls) are reified as a list of operations
  (`SheetOp`) together with an interpreter `applyOps` over the table's
  data region, so ordering properties of the clear-then-write protocol
  are statements about the emitted operation list.
-/

namespace ITW

/-- JS whitespace characters recognised by `String.prototype.trim`,
`parseInt` and `Number` (ASCII subset; the source data never contains the
exotic Unicode space classes). -/
def jsWs (c : Char) : Bool :=
  c = ' ' ∨ c = '\t' ∨ c = '\n' ∨ c = '\r' ∨ c = '\x0b' ∨ c = '\x0c'

/-- JS `String.prototype.trim` on a character list. -/
def trimChars (cs : List Char) : List Char :=
  ((cs.dropWhile jsWs).reverse.dropWhile jsWs).reverse

/-- JS `String.prototype.trim`. -/
def trimStr (s : String) : String := ⟨trimChars s.data⟩

/-- JS `String.prototype.toLowerCase` (ASCII; the header keywords and
status keywords are ASCII). -/
def lowerStr (s : String) : String := ⟨s.data.map Char.toLower⟩

/-- JS truthiness of a string: nonempty. -/
def truthy (s : String) : Bool := s ≠ ""

/-- JS `a || b` on strings. -/
def jsOr (a b : String) : String := if truthy a then a else b

/-- JS `a.includes(b)`: `b.data` occurs contiguously inside `a.data`. -/
def strIncludes (a b : String) : Bool :=
  a.data.tails.any (fun t => b.data.isPrefixOf t)

/-- Decimal digit to character, as JS number printing produces. -/
def digitChar (n : Nat) : Char :=
  match n with
  | 0 => '0' | 1 => '1' | 2 => '2' | 3 => '3' | 4 => '4'
  | 5 => '5' | 6 => '6' | 7 => '7' | 8 => '8' | _ => '9'

/-- Character to decimal digit value. -/
def digitVal (c : Char) : Nat := c.toNat - 48

/-- Value of a big-endian decimal digit string. -/
def digitsVal (cs : List Char) : Nat :=
  cs.foldl (fun a c => a * 10 + digitVal c) 0

/-- Big-endian decimal digits of `n` (fuel-structured so that it reduces in
the kernel; fuel `n + 1` always suffices). -/
def natDecChars : Nat → Nat → List Char
  | 0, _ => []
  | fuel + 1, n =>
    if n < 10 then [digitChar n]
    else natDecChars fuel (n / 10) ++ [digitChar (n % 10)]

/-- Decimal string of a natural, as JS `Number.prototype.toString`. -/
def natToDecString (n : Nat) : String := ⟨natDecChars (n + 1) n⟩

/-- Decimal string of an integer, as JS `Number.prototype.toString` on an
integral number. -/
def intToDecString (n : Int) : String :=
  if n < 0 then ⟨'-' :: natDecChars (n.natAbs + 1) n.natAbs⟩
  else natToDecString n.natAbs

/-- Leading decimal digits interpreted as an integer with sign `neg`;
`none` when there is no digit (JS `NaN`). -/
def parseIntDec (neg : Bool) (cs : List Char) : Option Int :=
  let ds := cs.takeWhile Char.isDigit
  if ds = [] then none
  else some ((if neg then -1 else 1) * (digitsVal ds : Int))

/-- Leading hexadecimal digits interpreted as an integer with sign `neg`. -/
def parseIntHex (neg : Bool) (cs : List Char) : Option Int :=
  let ds := cs.takeWhile (fun c => c.isDigit ∨ ('a' ≤ c ∧ c ≤ 'f') ∨ ('A' ≤ c ∧ c ≤ 'F'))
  if ds = [] then none
  else some ((if neg then -1 else 1) *
    ((ds.foldl (fun a c =>
      a * 16 + (if c.isDigit then digitVal c
                else if 'a' ≤ c ∧ c ≤ 'f' then c.toNat - 87
                else c.toNat - 55)) 0 : Nat) : Int))

/-- JS `parseInt(s)` with no radix argument: skip leading whitespace, read
an optional sign, auto-detect a `0x` prefix, then take the longest prefix
of digits; `none` models `NaN`. -/
def jsParseInt (s : String) : Option Int :=
  match s.data.dropWhile jsWs with
  | [] => none
  | c :: t =>
    let neg := c = '-'
    let body := if c = '-' ∨ c = '+' then t else c :: t
    let isHex : Bool :=
      match body with
      | a :: b :: _ => decide (a = '0' ∧ (b = 'x' ∨ b = 'X'))
      | _ => false
    if isHex then parseIntHex neg (body.drop 2) else parseIntDec neg body

/-- WorkSession, from `App.tsx` / the calendar-session plan document:
`id`, `date` (YYYY-MM-DD), `startTime`/`endTime` (HH:MM) are required
strings, `calendarEventId` and `notes` optional. -/
structure WorkSession where
  id : String
  calendarEventId : Option String
  date : String
  startTime : String
  endTime : String
  notes : Option String
deriving DecidableEq, Repr

/-- WorkItem, from `App.tsx` (the variant `googleSheetsService.ts` imports):
required `id`/`name`/`owner`/`status`/`priority` strings (status and
priority are open string unions), optional dates, notes, integral
progress, creation timestamp, UI collapse flag, session list and calendar
flag.  There is no `updatedAt` field on the type: the updated-at column is
stamped from the clock at encode time and ignored by decode. -/
structure WorkItem where
  id : String
  name : String
  owner : String
  status : String
  priority : String
  startDate : Option String
  dueDate : Option String
  progress : Option Int
  notes : Option String
  createdAt : Option String
  collapsed : Option Bool
  workSessions : Option (List WorkSession)
  calendarSynced : Option Bool
deriving DecidableEq, Repr

/-! ## JSON codec for the sessions cell

`JSON.stringify(item.workSessions || [])` writes an array of flat objects
whose values are all strings; `JSON.parse(row[10])` reads it back.  The
serializer escapes the characters `JSON.stringify` escapes in the data
that occurs here (quote, backslash, and the common control characters);
the parser undoes exactly those escapes and takes any other character
literally. -/

/-- Escape one character as JSON string content. -/
def escChar (c : Char) : List Char :=
  if c = '"' then ['\\', '"']
  else if c = '\\' then ['\\', '\\']
  else if c = '\n' then ['\\', 'n']
  else if c = '\r' then ['\\', 'r']
  else if c = '\t' then ['\\', 't']
  else [c]

/-- Escape a string's characters as JSON string content. -/
def escChars : List Char → List Char
  | [] => []
  | c :: cs => escChar c ++ escChars cs

/-- Render a JSON string literal (opening quote already emitted by the
caller is not assumed: this emits both quotes). -/
def jsonStrChars (s : String) : List Char :=
  '"' :: escChars s.data ++ ['"']

/-- Render one `"key":"value"` pair. -/
def pairChars (p : String × String) : List Char :=
  jsonStrChars p.1 ++ ':' :: jsonStrChars p.2

/-- Render a nonempty pair list joined by commas. -/
def pairsChars : List (String × String) → List Char
  | [] => []
  | [p] => pairChars p
  | p :: ps => pairChars p ++ ',' :: pairsChars ps

/-- Render one object. -/
def objChars (ps : List (String × String)) : List Char :=
  '{' :: pairsChars ps ++ ['}']

/-- Render a nonempty object list joined by commas. -/
def objsChars : List (List (String × String)) → List Char
  | [] => []
  | [o] => objChars o
  | o :: os => objChars o ++ ',' :: objsChars os

/-- Render an array of flat objects, as `JSON.stringify` does. -/
def arrChars (os : List (List (String × String))) : List Char :=
  match os with
  | [] => ['[', ']']
  | _ => '[' :: objsChars os ++ [']']

/-- Parse the body of a JSON string literal after the opening quote,
unescaping; returns the content and the remainder after the closing
quote. -/
def parseStrBody : List Char → Option (List Char × List Char)
  | [] => none
  | c :: rest =>
    if c = '"' then some ([], rest)
    else if c = '\\' then
      match rest with
      | [] => none
      | e :: rest1 =>
        let u : Option Char :=
          if e = '"' then some '"'
          else if e = '\\' then some '\\'
          else if e = '/' then some '/'
          else if e = 'n' then some '\n'
          else if e = 'r' then some '\r'
          else if e = 't' then some '\t'
          else none
        match u with
        | none => none
        | some d =>
          match parseStrBody rest1 with
          | none => none
          | some (s, r) => some (d :: s, r)
    else
      match parseStrBody rest with
      | none => none
      | some (s, r) => some (c :: s, r)

/-- Parse one `"key":"value"` pair. -/
def parsePairItem (cs : List Char) : Option ((String × String) × List Char) :=
  match cs with
  | '"' :: rest =>
    match parseStrBody rest with
    | none => none
    | some (k, rest1) =>
      match rest1 with
      | ':' :: '"' :: rest2 =>
        match parseStrBody rest2 with
        | none => none
        | some (v, rest3) => some ((⟨k⟩, ⟨v⟩), rest3)
      | _ => none
  | _ => none

/-- Parse a nonempty comma-separated pair list up to and including the
closing brace. -/
def parsePairList : Nat → List Char → Option (List (String × String) × List Char)
  | 0, _ => none
  | fuel + 1, cs =>
    match parsePairItem cs with
    | none => none
    | some (p, rest) =>
      match rest with
      | ',' :: rest1 =>
        match parsePairList fuel rest1 with
        | none => none
        | some (ps, rest2) => some (p :: ps, rest2)
      | '}' :: rest1 => some ([p], rest1)
      | _ => none

/-- Parse one object, brace to brace. -/
def parseObjItem (fuel : Nat) (cs : List Char) :
    Option (List (String × String) × List Char) :=
  match cs with
  | '{' :: '}' :: rest => some ([], rest)
  | '{' :: rest => parsePairList fuel rest
  | _ => none

/-- Parse a nonempty comma-separated object list up to and including the
closing bracket. -/
def parseObjList : Nat → List Char → Option (List (List (String × String)) × List Char)
  | 0, _ => none
  | fuel + 1, cs =>
    match parseObjItem fuel cs with
    | none => none
    | some (o, rest) =>
      match rest with
      | ',' :: rest1 =>
        match parseObjList fuel rest1 with
        | none => none
        | some (os, rest2) => some (o :: os, rest2)
      | ']' :: rest1 => some ([o], rest1)
      | _ => none

/-- Build a `WorkSession` from a parsed object's pairs, as JS property
access on the parsed object does (a missing required key surfaces as the
empty string; optional keys as `none`). -/
def sessionOfPairs (ps : List (String × String)) : WorkSession :=
  { id := (ps.lookup "id").getD ""
  , calendarEventId := ps.lookup "calendarEventId"
  , date := (ps.lookup "date").getD ""
  , startTime := (ps.lookup "startTime").getD ""
  , endTime := (ps.lookup "endTime").getD ""
  , notes := ps.lookup "notes" }

/-- Pairs emitted for one session: required fields always, optional fields
only when present (`JSON.stringify` drops `undefined` properties). -/
def sessionPairs (s : WorkSession) : List (String × String) :=
  ("id", s.id) ::
    ((s.calendarEventId.map (fun v => ("calendarEventId", v))).toList ++
      [("date", s.date), ("startTime", s.startTime), ("endTime", s.endTime)] ++
      (s.notes.map (fun v => ("notes", v))).toList)

/-- `JSON.stringify` of a session list. -/
def sessionsJsonString (l : List WorkSession) : String :=
  ⟨arrChars (l.map sessionPairs)⟩

/-- `JSON.parse` of a sessions cell, restricted to the fragment the
serializer produces; `none` models a thrown `SyntaxError`. -/
def parseSessionsJson (s : String) : Option (List WorkSession) :=
  match s.data with
  | ['[', ']'] => some []
  | '[' :: rest =>
    match parseObjList s.data.length rest with
    | some (os, []) => some (os.map sessionOfPairs)
    | _ => none
  | _ => none

/-! ## Work-item row codec and table sync engine,
from `googleSheetsService.ts` (`syncWorkloadItems` / `loadWorkloadItems`). -/

/-- Sheets client configuration; `spreadsheetId` is the opaque location. -/
structure SheetsConfig where
  spreadsheetId : String
deriving DecidableEq, Repr

/-- Config truthiness check `!this.config?.spreadsheetId`. -/
def hasSpreadsheet (cfg : Option SheetsConfig) : Bool :=
  match cfg with
  | some c => truthy c.spreadsheetId
  | none => false

/-- `getSheetNameForBucket`. -/
def getSheetNameForBucket (bucketKey : String) : String :=
  if bucketKey = "profiles" then "Profiles"
  else if bucketKey = "contracts" then "Contracts"
  else if bucketKey = "projects" then "Main Projects"
  else "Profiles"

/-- Row encoding of one item inside `syncWorkloadItems`: the fixed column
sequence `A..K` = name, owner, status, priority, startDate, dueDate,
progress, notes, createdAt, updatedAt (stamped `now`), sessions JSON. -/
def encodeWorkItemRow (now : String) (item : WorkItem) : List String :=
  [ item.name
  , item.owner
  , item.status
  , item.priority
  , (item.startDate.getD "")
  , (item.dueDate.getD "")
  , jsOr (match item.progress with | some p => intToDecString p | none => "") "0"
  , (item.notes.getD "")
  , jsOr (item.createdAt.getD "") now
  , now
  , sessionsJsonString (item.workSessions.getD []) ]

/-- Remote table operations issued by the sync engine, in program order. -/
inductive SheetOp where
  | clearRange : String → SheetOp
  | updateRows : String → Nat → List (List String) → SheetOp
deriving DecidableEq, Repr

/-- `syncWorkloadItems(bucketKey, items)`: throws without a configured
spreadsheet or authentication, otherwise issues a clear of the data region
`A2:K` followed (only when there is data) by one update writing the encoded
rows starting at row 2. -/
def syncWorkloadItems (cfg : Option SheetsConfig) (isAuthenticated : Bool)
    (now : String) (bucketKey : String) (items : List WorkItem) :
    Except String (List SheetOp) :=
  if ¬hasSpreadsheet cfg then .error "No spreadsheet configured"
  else if ¬isAuthenticated then .error "Not authenticated with Google Sheets"
  else
    let sheetName := getSheetNameForBucket bucketKey
    let values := items.map (encodeWorkItemRow now)
    .ok (SheetOp.clearRange sheetName ::
      (if values.length > 0 then [SheetOp.updateRows sheetName 2 values] else []))

/-- The remote table's data region (rows 2..), each row a list of cells. -/
abbrev Table := List (List String)

/-- Overwrite `t` from 0-based offset `off` with `vs`. -/
def overwriteFrom (t : Table) (off : Nat) (vs : Table) : Table :=
  t.take off ++ vs ++ t.drop (off + vs.length)

/-- Interpretation of one operation on the data region: a clear of `A2:K`
empties it; an update starting at sheet row `r` overwrites from offset
`r - 2`. -/
def applyOp (t : Table) : SheetOp → Table
  | SheetOp.clearRange _ => []
  | SheetOp.updateRows _ r vs => overwriteFrom t (r - 2) vs

/-- Interpretation of an operation sequence, in order. -/
def applyOps (t : Table) (ops : List SheetOp) : Table :=
  ops.foldl applyOp t

/-- List map with the element index, as JS `Array.prototype.map`. -/
def mapWithIdx (f : Nat → α → β) : Nat → List α → List β
  | _, [] => []
  | i, a :: as => f i a :: mapWithIdx f (i + 1) as

/-- Row decoding inside `loadWorkloadItems`: id derived from bucket and row
index, blank status/priority defaulted, progress via `parseInt`, createdAt
defaulted to the clock, sessions JSON-parsed only when column K exists and
is non-blank with parse failures swallowed to `[]`. -/
def decodeWorkItemRow (bucketKey : String) (now : String) (index : Nat)
    (row : List String) : WorkItem :=
  let cell := fun i => row.getD i ""
  let workSessions : List WorkSession :=
    if row.length > 10 ∧ truthy (cell 10) then
      match parseSessionsJson (cell 10) with
      | some l => l
      | none => []
    else []
  { id := bucketKey ++ "-" ++ natToDecString index
  , name := jsOr (cell 0) ""
  , owner := jsOr (cell 1) ""
  , status := jsOr (cell 2) "Not Started"
  , priority := jsOr (cell 3) "Medium"
  , startDate := some (jsOr (cell 4) "")
  , dueDate := some (jsOr (cell 5) "")
  , progress := jsParseInt (jsOr (cell 6) "0")
  , notes := some (jsOr (cell 7) "")
  , createdAt := some (jsOr (cell 8) now)
  , collapsed := some true
  , workSessions := some workSessions
  , calendarSynced := some (workSessions.length > 0) }

/-- Result of the remote `values.get` call: a transport error, a response
with no `values` field, or the data-region rows. -/
inductive FetchResult where
  | err : String → FetchResult
  | noValues : FetchResult
  | rows : Table → FetchResult

/-- `loadWorkloadItems(bucketKey)`: no configured spreadsheet or a failed
fetch yields `[]`; otherwise each fetched row is decoded, in row order. -/
def loadWorkloadItems (cfg : Option SheetsConfig) (now : String)
    (bucketKey : String) (fetched : FetchResult) : List WorkItem :=
  if ¬hasSpreadsheet cfg then []
  else
    match fetched with
    | FetchResult.err _ => []
    | FetchResult.noValues => mapWithIdx (decodeWorkItemRow bucketKey now) 0 []
    | FetchResult.rows rows => mapWithIdx (decodeWorkItemRow bucketKey now) 0 rows

/-! ## Ticket CSV classifier, from `App.tsx` (`parseCsv`, `importTicketsCsv`).

CSV rows are modelled as JS objects: association lists from header name to
cell value, with JS assignment semantics (overwrite in place if the key
exists, else append).  JS numbers are modelled as `Rat`, with `none` for
`NaN`; the only divergence is that astronomically large exponents that
overflow to `Infinity` in JS stay finite here, which no classifier
comparison (against 2, 3, 4, 5) can observe. -/

/-- JS object assignment `o[k] = v` on an association list. -/
def jsRecSet (o : List (String × String)) (k v : String) : List (String × String) :=
  if (o.lookup k).isSome then o.map (fun p => if p.1 = k then (k, v) else p)
  else o ++ [(k, v)]

/-- JS property read `o[k] || ''` (missing and empty both yield `""`). -/
def recGet (o : List (String × String)) (k : String) : String :=
  (o.lookup k).getD ""

/-- JS `Object.keys`, in insertion order. -/
def recKeys (o : List (String × String)) : List String := o.map Prod.fst

/-- Newline normalisation `text.replace(/\r\n?|\n/g, '\n')`. -/
def normNewlines : List Char → List Char
  | [] => []
  | '\r' :: '\n' :: rest => '\n' :: normNewlines rest
  | '\r' :: rest => '\n' :: normNewlines rest
  | c :: rest => c :: normNewlines rest

/-- Character loop of `parseLine` inside `parseCsv`: double-quote escaping,
commas split only outside quotes. -/
def parseLineAux : List Char → Bool → List Char → List String → List String
  | [], _, cur, out => out ++ [⟨cur⟩]
  | '"' :: '"' :: rest, true, cur, out => parseLineAux rest true (cur ++ ['"']) out
  | '"' :: rest, inQuotes, cur, out => parseLineAux rest (!inQuotes) cur out
  | ch :: rest, inQuotes, cur, out =>
    if ch = ',' ∧ inQuotes = false then
      parseLineAux rest inQuotes [] (out ++ [⟨cur⟩])
    else parseLineAux rest inQuotes (cur ++ [ch]) out

/-- `parseLine` inside `parseCsv`. -/
def parseLine (line : String) : List String := parseLineAux line.data false [] []

/-- Build one row object: `headers.forEach((h, idx) => obj[h] = (cols[idx] ?? '').trim())`. -/
def buildRowObj (headers cols : List String) : List (String × String) :=
  (mapWithIdx (fun i h => (h, i)) 0 headers).foldl
    (fun o hi => jsRecSet o hi.1 (trimStr (cols.getD hi.2 ""))) []

/-- `parseCsv`: header line parsed and trimmed, every later non-blank line
turned into a header-keyed object. -/
def parseCsv (text : String) : List (List (String × String)) :=
  match String.splitOn ⟨normNewlines text.data⟩ "\n" with
  | [] => []
  | header :: dataLines =>
    let headers := (parseLine header).map trimStr
    (dataLines.filter truthy).map (fun line => buildRowObj headers (parseLine line))

/-- Header-key normalisation in `importTicketsCsv`:
`Object.keys(r).forEach(k => o[k.toLowerCase()] = r[k])`. -/
def normRec (r : List (String × String)) : List (String × String) :=
  r.foldl (fun o p => jsRecSet o (lowerStr p.1) p.2) []

/-- The lower-cased rows the classifier works on. -/
def normCsv (text : String) : List (List (String × String)) :=
  (parseCsv text).map normRec

/-- `headerKeys = Object.keys(norm[0] || {})`. -/
def headerKeysOf (norm : List (List (String × String))) : List String :=
  recKeys (norm.headD [])

/-- `hasStatus` header detection. -/
def hasStatusHeaders (hk : List String) : Bool :=
  hk.contains "status" || hk.contains "ticket status" || hk.contains "ticket_status"

/-- `isGroupSummary` header detection. -/
def isGroupSummaryHeaders (hk : List String) : Bool :=
  hk.contains "group name" &&
    (hk.contains "employee tickets" || hk.contains "client tickets" ||
      hk.contains "internal tickets")

/-- State of the JS `Number(...)` string-to-number automaton: phase 0 reads
the integer part, 1 the fraction, 2 expects an exponent sign or digit,
3 reads exponent digits. -/
structure NumSt where
  mant : Rat
  fracPow : Nat
  seenDigit : Bool
  expNeg : Bool
  expVal : Nat
  seenExpDigit : Bool
  phase : Nat

/-- Initial automaton state. -/
def numInit : NumSt :=
  { mant := 0, fracPow := 1, seenDigit := false, expNeg := false
  , expVal := 0, seenExpDigit := false, phase := 0 }

/-- One character of the decimal-literal grammar of `Number(...)`. -/
def numStep (st : NumSt) (c : Char) : Option NumSt :=
  if st.phase = 0 then
    if c.isDigit then some { st with mant := st.mant * 10 + (digitVal c : Rat), seenDigit := true }
    else if c = '.' then some { st with phase := 1 }
    else if (c = 'e' ∨ c = 'E') ∧ st.seenDigit then some { st with phase := 2 }
    else none
  else if st.phase = 1 then
    if c.isDigit then
      some { st with
        mant := st.mant + (digitVal c : Rat) / ((10 : Rat) ^ st.fracPow),
        fracPow := st.fracPow + 1, seenDigit := true }
    else if (c = 'e' ∨ c = 'E') ∧ st.seenDigit then some { st with phase := 2 }
    else none
  else if st.phase = 2 then
    if c.isDigit then some { st with expVal := digitVal c, seenExpDigit := true, phase := 3 }
    else if c = '+' then some { st with phase := 3 }
    else if c = '-' then some { st with expNeg := true, phase := 3 }
    else none
  else
    if c.isDigit then some { st with expVal := st.expVal * 10 + digitVal c, seenExpDigit := true }
    else none

/-- Run the automaton over the characters. -/
def numRun : Option NumSt → List Char → Option NumSt
  | none, _ => none
  | some st, [] => some st
  | some st, c :: rest => numRun (numStep st c) rest

/-- Accept an unsigned decimal literal and compute its value. -/
def parseDecNum (cs : List Char) : Option Rat :=
  match numRun (some numInit) cs with
  | some st =>
    if st.seenDigit ∧ (st.phase = 0 ∨ st.phase = 1 ∨ st.seenExpDigit) then
      some (st.mant * (10 : Rat) ^ (if st.expNeg then -(st.expVal : Int) else (st.expVal : Int)))
    else none
  | none => none

/-- Digit test for radix-prefixed literals (`0x`, `0o`, `0b`). -/
def isRadixDigit (r : Nat) (c : Char) : Bool :=
  if r = 16 then c.isDigit || decide ('a' ≤ c ∧ c ≤ 'f') || decide ('A' ≤ c ∧ c ≤ 'F')
  else if r = 8 then decide ('0' ≤ c ∧ c ≤ '7')
  else decide (c = '0' ∨ c = '1')

/-- Value of a radix digit. -/
def radixDigitVal (c : Char) : Nat :=
  if c.isDigit then digitVal c
  else if 'a' ≤ c ∧ c ≤ 'f' then c.toNat - 87
  else c.toNat - 55

/-- Value of a radix-prefixed literal body. -/
def radixNum (r : Nat) (ds : List Char) : Option Rat :=
  if ds ≠ [] ∧ ds.all (isRadixDigit r) then
    some ((ds.foldl (fun a c => a * r + radixDigitVal c) 0 : Nat) : Rat)
  else none

/-- Radix selected by a `0x`/`0o`/`0b` prefix, 0 when there is none. -/
def numRadixOf (cs : List Char) : Nat :=
  match cs with
  | a :: b :: _ =>
    if a = '0' then
      if b = 'x' ∨ b = 'X' then 16
      else if b = 'o' ∨ b = 'O' then 8
      else if b = 'b' ∨ b = 'B' then 2
      else 0
    else 0
  | _ => 0

/-- Optional leading sign of a decimal literal: the sign flag and the
remaining body. -/
def numSignedBody (cs : List Char) : Bool × List Char :=
  match cs with
  | c :: t => if c = '-' then (true, t) else if c = '+' then (false, t) else (false, cs)
  | [] => (false, cs)

/-- JS `Number(s)` on a string: trimmed-empty is 0, `Infinity` literals and
`NaN` are `none`, radix prefixes are honoured (no sign), otherwise an
optionally signed decimal literal. -/
def jsStrToNum (s : String) : Option Rat :=
  let cs := trimChars s.data
  if cs = [] then some 0
  else if cs = "Infinity".data ∨ cs = "+Infinity".data ∨ cs = "-Infinity".data then none
  else if numRadixOf cs ≠ 0 then radixNum (numRadixOf cs) (cs.drop 2)
  else (parseDecNum (numSignedBody cs).2).map (fun q => if (numSignedBody cs).1 then -q else q)

/-- Ticket summary, from `App.tsx`: `open` of the source is `openCount`
here (`open` is reserved in Lean).  `meta` is the source-format tag:
`some "ticket-list"`, `some "group-summary"`, or `none` for Unknown. -/
structure TicketSummary where
  total : Rat
  completed : Rat
  openCount : Rat
  pending : Rat
  lastImportedAt : Option String
  meta : Option String
  breakdown : Option (List (String × List (String × Rat)))
  clientResolved : Option Rat
  employeeResolved : Option Rat
deriving DecidableEq, Repr

/-- The persisted store: three work-item buckets and the ticket summary. -/
structure Store where
  profiles : List WorkItem
  contracts : List WorkItem
  projects : List WorkItem
  tickets : Option TicketSummary
deriving Repr

/-- Status cell of a row: `(r['status'] || r['ticket status'] || r['ticket_status'] || '')`. -/
def statusCellOf (r : List (String × String)) : String :=
  jsOr (jsOr (recGet r "status") (recGet r "ticket status")) (recGet r "ticket_status")

/-- Classification outcome of one TicketList row. -/
inductive Cls where
  | completedC
  | pendingC
  | openC
deriving DecidableEq, Repr

/-- Per-row status classification of the TicketList branch, exactly as the
source computes it: the numeric guard `Number.isFinite(numeric) && lower !== ''`,
then the three substring-augmented flags tried in order, defaulting to
open. -/
def classifyStatusCell (raw : String) : Cls :=
  let lower := lowerStr raw
  let numeric := jsStrToNum lower
  let status : Option Rat := if numeric.isSome ∧ lower ≠ "" then numeric else none
  let isCompleted : Bool :=
    decide (status = some 4) || decide (status = some 5) ||
      strIncludes lower "resolved" || strIncludes lower "closed" ||
      strIncludes lower "complete"
  let isPending : Bool :=
    decide (status = some 3) || strIncludes lower "pending" || strIncludes lower "waiting"
  let isOpen : Bool :=
    decide (status = some 2) || strIncludes lower "open"
  if isCompleted then .completedC
  else if isPending then .pendingC
  else if isOpen then .openC
  else .openC

/-- The classification rule as the spec words it: numeric values classify
by value with a default of open, non-numeric values classify by
case-insensitive substring with a default of open. -/
def specClassifyStatusCell (raw : String) : Cls :=
  let lower := lowerStr raw
  match jsStrToNum lower with
  | some q =>
    if q = 4 ∨ q = 5 then .completedC
    else if q = 3 then .pendingC
    else if q = 2 then .openC
    else .openC
  | none =>
    if strIncludes lower "resolved" || strIncludes lower "closed" ||
        strIncludes lower "complete" then .completedC
    else if strIncludes lower "pending" || strIncludes lower "waiting" then .pendingC
    else if strIncludes lower "open" then .openC
    else .openC

/-- Counter loop of the TicketList branch: `(completed, pending, open)`. -/
def ticketLoop : List (List (String × String)) → Rat × Rat × Rat → Rat × Rat × Rat
  | [], acc => acc
  | r :: rest, (comp, pend, opn) =>
    match classifyStatusCell (statusCellOf r) with
    | .completedC => ticketLoop rest (comp + 1, pend, opn)
    | .pendingC => ticketLoop rest (comp, pend + 1, opn)
    | .openC => ticketLoop rest (comp, pend, opn + 1)

/-- TicketList branch of `importTicketsCsv`: counters from the loop, the
prior total preserved when the prior summary came from a group summary,
and the untouched fields (`clientResolved`, `employeeResolved`,
`breakdown`) carried over by the object spread. -/
def importTicketList (prior : Option TicketSummary) (now : String)
    (norm : List (List (String × String))) : TicketSummary :=
  let counts := ticketLoop norm (0, 0, 0)
  { total :=
      match prior with
      | some t => if t.meta = some "group-summary" then t.total else (norm.length : Rat)
      | none => (norm.length : Rat)
  , completed := counts.1
  , pending := counts.2.1
  , openCount := counts.2.2
  , lastImportedAt := some now
  , meta := some "ticket-list"
  , breakdown := prior.bind TicketSummary.breakdown
  , clientResolved := prior.bind TicketSummary.clientResolved
  , employeeResolved := prior.bind TicketSummary.employeeResolved }

/-- JS `String.prototype.endsWith`. -/
def strEndsWith (a b : String) : Bool := b.data.isSuffixOf a.data

/-- Numeric cell read of the GroupSummary branch:
`Number((r[col] || '').toString().replace(/,/g, '')) || 0`. -/
def cellNumOf (r : List (String × String)) (col : String) : Rat :=
  match jsStrToNum ⟨(recGet r col).data.filter (fun c => c ≠ ',')⟩ with
  | some q => q
  | none => 0

/-- Per-row accumulation of the GroupSummary branch over the candidate
columns: `(total, clientResolved, employeeResolved, values)`. -/
def gsRowAcc (r : List (String × String)) (numericCols : List String) :
    Rat × Rat × Rat × List (String × Rat) :=
  numericCols.foldl
    (fun acc col =>
      let v := cellNumOf r col
      ( acc.1 + (if strEndsWith col "tickets" && !(strIncludes col "resolved") then v else 0)
      , acc.2.1 + (if col = "client tickets resolved" then v else 0)
      , acc.2.2.1 + (if col = "employee tickets resolved" then v else 0)
      , acc.2.2.2 ++ [(col, v)]))
    (0, 0, 0, [])

/-- Row loop of the GroupSummary branch. -/
def gsLoop (numericCols : List String) :
    List (List (String × String)) →
    Rat × Rat × Rat × List (String × List (String × Rat)) →
    Rat × Rat × Rat × List (String × List (String × Rat))
  | [], acc => acc
  | r :: rest, (total, cr, er, breakdown) =>
    let rowAcc := gsRowAcc r numericCols
    gsLoop numericCols rest
      ( total + rowAcc.1, cr + rowAcc.2.1, er + rowAcc.2.2.1
      , breakdown ++ [(jsOr (recGet r "group name") "Group", rowAcc.2.2.2)])

/-- GroupSummary branch of `importTicketsCsv`. -/
def importGroupSummary (prior : Option TicketSummary) (now : String)
    (hk : List String) (norm : List (List (String × String))) : TicketSummary :=
  let numericCols := hk.filter (fun k => strEndsWith k "tickets" || strEndsWith k "resolved")
  let acc := gsLoop numericCols norm (0, 0, 0, [])
  { total := acc.1
  , completed := acc.2.1 + acc.2.2.1
  , clientResolved := some acc.2.1
  , employeeResolved := some acc.2.2.1
  , openCount := (prior.map TicketSummary.openCount).getD 0
  , pending := (prior.map TicketSummary.pending).getD 0
  , lastImportedAt := some now
  , meta := some "group-summary"
  , breakdown := some acc.2.2.2 }

/-- Fallback branch of `importTicketsCsv`: a fresh summary object with the
row count as total, the prior counters, and no meta tag or breakdown. -/
def importUnknown (prior : Option TicketSummary) (now : String)
    (norm : List (List (String × String))) : TicketSummary :=
  { total := (norm.length : Rat)
  , completed := (prior.map TicketSummary.completed).getD 0
  , openCount := (prior.map TicketSummary.openCount).getD 0
  , pending := (prior.map TicketSummary.pending).getD 0
  , lastImportedAt := some now
  , meta := none
  , breakdown := none
  , clientResolved := none
  , employeeResolved := none }

/-- `importTicketsCsv` applied to the store (the `setStore` calls of the
three branches), with the clock as a parameter. -/
def importTicketsCsv (store : Store) (now : String) (text : String) : Store :=
  let norm := normCsv text
  let hk := headerKeysOf norm
  let t :=
    if hasStatusHeaders hk then importTicketList store.tickets now norm
    else if isGroupSummaryHeaders hk then importGroupSummary store.tickets now hk norm
    else importUnknown store.tickets now norm
  { store with tickets := some t }

/-- The spec's three-way format tag. -/
inductive SourceFormat where
  | ticketList
  | groupSummary
  | unknown
deriving DecidableEq, Repr

/-- Format detection as the spec words it, in priority order. -/
def specDetectFormat (hk : List String) : SourceFormat :=
  if "status" ∈ hk ∨ "ticket status" ∈ hk ∨ "ticket_status" ∈ hk then .ticketList
  else if "group name" ∈ hk ∧
      ("employee tickets" ∈ hk ∨ "client tickets" ∈ hk ∨ "internal tickets" ∈ hk) then
    .groupSummary
  else .unknown

/-! ## Local edits, from `App.tsx` (`updateItem`). -/

/-- A `Partial<WorkItem>` patch: a present outer `Option` means the key is
present on the patch object and overrides the item's field. -/
structure WorkItemPatch where
  id : Option String := none
  name : Option String := none
  owner : Option String := none
  status : Option String := none
  priority : Option String := none
  startDate : Option (Option String) := none
  dueDate : Option (Option String) := none
  progress : Option (Option Int) := none
  notes : Option (Option String) := none
  createdAt : Option (Option String) := none
  collapsed : Option (Option Bool) := none
  workSessions : Option (Option (List WorkSession)) := none
  calendarSynced : Option (Option Bool) := none
deriving Repr

/-- The object spread `{ ...it, ...patch }`. -/
def applyPatch (it : WorkItem) (p : WorkItemPatch) : WorkItem :=
  { id := p.id.getD it.id
  , name := p.name.getD it.name
  , owner := p.owner.getD it.owner
  , status := p.status.getD it.status
  , priority := p.priority.getD it.priority
  , startDate := p.startDate.getD it.startDate
  , dueDate := p.dueDate.getD it.dueDate
  , progress := p.progress.getD it.progress
  , notes := p.notes.getD it.notes
  , createdAt := p.createdAt.getD it.createdAt
  , collapsed := p.collapsed.getD it.collapsed
  , workSessions := p.workSessions.getD it.workSessions
  , calendarSynced := p.calendarSynced.getD it.calendarSynced }

/-- `updateItem` on one bucket:
`s[bucket].map(it => it.id === id ? { ...it, ...patch } : it)`. -/
def updateItem (bucket : List WorkItem) (id : String) (patch : WorkItemPatch) :
    List WorkItem :=
  bucket.map (fun it => if it.id = id then applyPatch it patch else it)

/-- Fuel measure for the JSON object-list parser: number of objects plus
number of pairs, a lower bound on the rendered character count. -/
def sizeObjs (os : List (List (String × String))) : Nat :=
  os.length + (os.map List.length).sum

/-- Characters that can occur in a string accepted by `jsStrToNum`
(whitespace, digits, hex digits in either case, radix markers, sign,
decimal point).  Every status keyword of the classifier contains a
character outside this set, which is what makes the numeric branch and
the substring branch of the classification mutually exclusive. -/
def numAllowedChar (c : Char) : Bool :=
  jsWs c || c.isDigit ||
    decide ('a' ≤ c ∧ c ≤ 'f') || decide ('A' ≤ c ∧ c ≤ 'F') ||
    decide (c = '+') || decide (c = '-') || decide (c = '.') ||
    decide (c = 'x') || decide (c = 'X') || decide (c = 'o') || decide (c = 'O')

/-! ## Lemmas: decimal digit strings and `parseInt` -/

theorem digitChar_isDigit (n : Nat) : (digitChar n).isDigit = true := by
  rcases n with _|_|_|_|_|_|_|_|_|n <;> rfl

theorem digitVal_digitChar (n : Nat) (h : n < 10) : digitVal (digitChar n) = n := by
  interval_cases n <;> rfl

theorem digitsVal_append (l : List Char) (c : Char) :
    digitsVal (l ++ [c]) = digitsVal l * 10 + digitVal c := by
  simp [digitsVal, List.foldl_append]

theorem natDecChars_val : ∀ fuel n, n < 10 ^ fuel → digitsVal (natDecChars fuel n) = n := by
  intro fuel
  induction fuel with
  | zero =>
    intro n h
    interval_cases n
    rfl
  | succ fuel ih =>
    intro n h
    by_cases h10 : n < 10
    · simp [natDecChars, h10, digitsVal, digitVal_digitChar n h10]
    · have hdiv : n / 10 < 10 ^ fuel := by
        rw [Nat.div_lt_iff_lt_mul (by norm_num)]
        calc n < 10 ^ (fuel + 1) := h
        _ = 10 ^ fuel * 10 := by ring
      simp only [natDecChars, h10, if_false]
      rw [digitsVal_append, ih _ hdiv, digitVal_digitChar _ (Nat.mod_lt _ (by norm_num))]
      omega

theorem natDecChars_digits : ∀ fuel n c, c ∈ natDecChars fuel n → c.isDigit = true := by
  intro fuel
  induction fuel with
  | zero => intro n c h; simp [natDecChars] at h
  | succ fuel ih =>
    intro n c h
    by_cases h10 : n < 10
    · simp [natDecChars, h10] at h
      subst h
      exact digitChar_isDigit n
    · simp [natDecChars, h10] at h
      rcases h with h | h
      · exact ih _ _ h
      · subst h
        exact digitChar_isDigit _

theorem natDecChars_ne_nil (fuel n : Nat) : natDecChars (fuel + 1) n ≠ [] := by
  by_cases h10 : n < 10 <;> simp [natDecChars, h10]

theorem isDigit_ne_marks (c : Char) (h : c.isDigit = true) :
    c ≠ '-' ∧ c ≠ '+' ∧ c ≠ 'x' ∧ c ≠ 'X' := by
  refine ⟨?_, ?_, ?_, ?_⟩ <;> rintro rfl <;> exact absurd h (by decide)

theorem jsWs_eq_false_of_isDigit (c : Char) (h : c.isDigit = true) : jsWs c = false := by
  by_contra hw
  rw [Bool.not_eq_false] at hw
  simp only [jsWs, decide_eq_true_eq] at hw
  rcases hw with rfl | rfl | rfl | rfl | rfl | rfl <;> exact absurd h (by decide)

theorem jsParseInt_all_digits (c : Char) (t : List Char)
    (h1 : ∀ d ∈ c :: t, d.isDigit = true) :
    jsParseInt ⟨c :: t⟩ = some ((digitsVal (c :: t) : Nat) : Int) := by
  have hc := h1 c (by simp)
  obtain ⟨hm, hp, _, _⟩ := isDigit_ne_marks c hc
  have hdw : (c :: t).dropWhile jsWs = c :: t := by
    simp [List.dropWhile_cons, jsWs_eq_false_of_isDigit c hc]
  have htake : (c :: t).takeWhile Char.isDigit = c :: t :=
    List.takeWhile_eq_self_iff.mpr h1
  show jsParseInt (String.mk (c :: t)) = _
  unfold jsParseInt
  simp only [String.mk, hdw]
  cases t with
  | nil =>
    simp [hm, hp, parseIntDec, htake]
  | cons b t2 =>
    have hb := h1 b (by simp)
    obtain ⟨_, _, hbx, hbX⟩ := isDigit_ne_marks b hb
    simp [hm, hp, hbx, hbX, parseIntDec, htake]

theorem jsParseInt_neg_digits (c : Char) (t : List Char)
    (h1 : ∀ d ∈ c :: t, d.isDigit = true) :
    jsParseInt ⟨'-' :: c :: t⟩ = some (-((digitsVal (c :: t) : Nat) : Int)) := by
  have htake : (c :: t).takeWhile Char.isDigit = c :: t :=
    List.takeWhile_eq_self_iff.mpr h1
  show jsParseInt (String.mk ('-' :: c :: t)) = _
  unfold jsParseInt
  have hwsm : jsWs '-' = false := by decide
  have hdw : ('-' :: c :: t).dropWhile jsWs = '-' :: c :: t := by
    simp [List.dropWhile_cons, hwsm]
  simp only [String.mk, hdw]
  cases t with
  | nil =>
    simp [parseIntDec, htake]
  | cons b t2 =>
    have hb := h1 b (by simp)
    obtain ⟨_, _, hbx, hbX⟩ := isDigit_ne_marks b hb
    simp [hbx, hbX, parseIntDec, htake]

theorem jsParseInt_intToDecString (n : Int) : jsParseInt (intToDecString n) = some n := by
  have hne := natDecChars_ne_nil n.natAbs n.natAbs
  obtain ⟨c, t, hct⟩ : ∃ c t, natDecChars (n.natAbs + 1) n.natAbs = c :: t := by
    cases h : natDecChars (n.natAbs + 1) n.natAbs with
    | nil => exact absurd h hne
    | cons c t => exact ⟨c, t, rfl⟩
  have hdig : ∀ d ∈ c :: t, d.isDigit = true := by
    intro d hd
    exact natDecChars_digits _ _ d (hct ▸ hd)
  have hval : digitsVal (c :: t) = n.natAbs := by
    rw [← hct]
    exact natDecChars_val _ _ (lt_of_lt_of_le (Nat.lt_pow_self (by norm_num) _)
      (Nat.pow_le_pow_right (by norm_num) (Nat.le_succ _)))
  by_cases hn : n < 0
  · rw [intToDecString, if_pos hn, hct]
    rw [jsParseInt_neg_digits c t hdig, hval]
    congr 1
    omega
  · rw [intToDecString, if_neg hn, natToDecString, hct]
    rw [jsParseInt_all_digits c t hdig, hval]
    congr 1
    omega

/-! ## Lemmas: JSON round trip for the sessions cell -/

theorem parseStrBody_cons_other (c : Char) (rest : List Char)
    (hq : ¬c = '"') (hb : ¬c = '\\') :
    parseStrBody (c :: rest) =
      match parseStrBody rest with
      | none => none
      | some (s, r) => some (c :: s, r) := by
  rw [parseStrBody.eq_def]
  simp [hq, hb]

theorem parseStrBody_escChars : ∀ (s r : List Char),
    parseStrBody (escChars s ++ '"' :: r) = some (s, r) := by
  intro s
  induction s with
  | nil =>
    intro r
    rw [show escChars [] ++ '"' :: r = '"' :: r from rfl, parseStrBody.eq_def]
    simp
  | cons c s ih =>
    intro r
    by_cases hq : c = '"'
    · subst hq
      simp [escChars, escChar, parseStrBody, ih]
    · by_cases hb : c = '\\'
      · subst hb
        simp [escChars, escChar, parseStrBody, ih]
      · by_cases hn : c = '\n'
        · subst hn
          simp [escChars, escChar, parseStrBody, ih]
        · by_cases hr : c = '\r'
          · subst hr
            simp [escChars, escChar, parseStrBody, ih]
          · by_cases ht : c = '\t'
            · subst ht
              simp [escChars, escChar, parseStrBody, ih]
            · simp only [escChars, escChar, if_neg hq, if_neg hb, if_neg hn, if_neg hr,
                if_neg ht, List.singleton_append, List.cons_append, List.nil_append]
              rw [parseStrBody_cons_other c (escChars s ++ '"' :: r) hq hb, ih r]

theorem parsePairItem_pairChars (p : String × String) (r : List Char) :
    parsePairItem (pairChars p ++ r) = some (p, r) := by
  obtain ⟨k, v⟩ := p
  show parsePairItem ((jsonStrChars k ++ ':' :: jsonStrChars v) ++ r) = _
  simp only [jsonStrChars, List.cons_append, List.append_assoc]
  simp [parsePairItem, parseStrBody_escChars]

theorem pairsChars_cons_shape (p : String × String) (ps : List (String × String)) :
    ∃ tail, pairsChars (p :: ps) = '"' :: tail := by
  cases ps <;> simp [pairsChars, pairChars, jsonStrChars]

theorem parsePairList_pairsChars :
    ∀ (ps : List (String × String)) (_ : ps ≠ []) (r : List Char) (fuel : Nat),
      ps.length ≤ fuel →
      parsePairList fuel (pairsChars ps ++ '}' :: r) = some (ps, r) := by
  intro ps
  induction ps with
  | nil => intro h; exact absurd rfl h
  | cons p ps ih =>
    intro _ r fuel hf
    cases fuel with
    | zero => simp at hf
    | succ fuel =>
      cases ps with
      | nil =>
        simp only [pairsChars]
        simp [parsePairList, parsePairItem_pairChars]
      | cons q ps2 =>
        have hlen : (q :: ps2).length ≤ fuel := by
          simpa using Nat.le_of_succ_le_succ hf
        simp only [pairsChars, List.append_assoc, List.cons_append]
        rw [show (pairChars p ++ (',' :: (pairsChars (q :: ps2) ++ '}' :: r))) =
          pairChars p ++ (',' :: (pairsChars (q :: ps2) ++ '}' :: r)) from rfl]
        simp only [parsePairList, parsePairItem_pairChars]
        simp [ih (by simp) r fuel hlen]

theorem parseObjItem_objChars_nil (fuel : Nat) (r : List Char) :
    parseObjItem fuel (objChars [] ++ r) = some ([], r) := by
  simp [objChars, pairsChars, parseObjItem]

theorem parseObjItem_objChars (ps : List (String × String)) (fuel : Nat)
    (hf : ps.length ≤ fuel) (r : List Char) :
    parseObjItem fuel (objChars ps ++ r) = some (ps, r) := by
  cases ps with
  | nil => exact parseObjItem_objChars_nil fuel r
  | cons p ps2 =>
    obtain ⟨tail, htail⟩ := pairsChars_cons_shape p ps2
    have harg : objChars (p :: ps2) ++ r = '{' :: '"' :: (tail ++ '}' :: r) := by
      simp [objChars, htail]
    rw [harg]
    have hback : ('"' :: (tail ++ '}' :: r) : List Char) = pairsChars (p :: ps2) ++ '}' :: r := by
      rw [htail]
      simp
    show parsePairList fuel ('"' :: (tail ++ '}' :: r)) = some (p :: ps2, r)
    rw [hback]
    exact parsePairList_pairsChars (p :: ps2) (by simp) r fuel hf

theorem objsChars_cons_shape (o : List (String × String))
    (os : List (List (String × String))) :
    ∃ tail, objsChars (o :: os) = '{' :: tail := by
  cases os <;> simp [objsChars, objChars]

theorem parseObjList_objsChars :
    ∀ (os : List (List (String × String))) (_ : os ≠ []) (r : List Char) (fuel : Nat),
      sizeObjs os ≤ fuel →
      parseObjList fuel (objsChars os ++ ']' :: r) = some (os, r) := by
  intro os
  induction os with
  | nil => intro h; exact absurd rfl h
  | cons o os ih =>
    intro _ r fuel hf
    cases fuel with
    | zero =>
      exact absurd hf (by simp [sizeObjs])
    | succ fuel =>
      have ho : o.length ≤ fuel := by
        simp [sizeObjs] at hf
        omega
      cases os with
      | nil =>
        simp only [objsChars]
        simp [parseObjList, parseObjItem_objChars o fuel ho]
      | cons o2 os2 =>
        have hrest : sizeObjs (o2 :: os2) ≤ fuel := by
          simp [sizeObjs] at hf ⊢
          omega
        simp only [objsChars, List.append_assoc, List.cons_append]
        simp only [parseObjList, parseObjItem_objChars o fuel ho]
        simp [ih (by simp) r fuel hrest]

theorem pairsChars_length (ps : List (String × String)) :
    ps.length ≤ (pairsChars ps).length := by
  induction ps with
  | nil => simp [pairsChars]
  | cons p ps ih =>
    obtain ⟨tail, htail⟩ := pairsChars_cons_shape p ps
    cases ps with
    | nil => simp [htail]
    | cons q ps2 =>
      simp only [pairsChars, List.length_append, List.length_cons] at ih ⊢
      have hp : 1 ≤ (pairChars p).length := by
        obtain ⟨t2, ht2⟩ := pairsChars_cons_shape p []
        simp only [pairsChars] at ht2
        simp [ht2]
      omega

theorem objsChars_length (os : List (List (String × String))) :
    sizeObjs os ≤ (objsChars os).length := by
  induction os with
  | nil => simp [sizeObjs, objsChars]
  | cons o os ih =>
    have hpair := pairsChars_length o
    cases os with
    | nil =>
      simp only [objsChars, objChars, sizeObjs, List.length_cons, List.length_append,
        List.map_cons, List.map_nil, List.sum_cons, List.sum_nil, List.length_nil]
      omega
    | cons o2 os2 =>
      simp only [objsChars, objChars, sizeObjs, List.length_cons, List.length_append,
        List.map_cons, List.sum_cons] at ih ⊢
      omega

theorem sessionOfPairs_sessionPairs (s : WorkSession) :
    sessionOfPairs (sessionPairs s) = s := by
  obtain ⟨i, ce, d, st, en, no⟩ := s
  cases ce <;> cases no <;> rfl

theorem parseSessionsJson_sessionsJsonString (l : List WorkSession) :
    parseSessionsJson (sessionsJsonString l) = some l := by
  cases l with
  | nil => rfl
  | cons s0 l0 =>
    have hcomp : sessionOfPairs ∘ sessionPairs = id := funext sessionOfPairs_sessionPairs
    set os := (s0 :: l0).map sessionPairs with hos
    have hosne : os ≠ [] := by simp [hos]
    obtain ⟨o1, os1, ho1⟩ : ∃ o1 os1, os = o1 :: os1 := by
      cases h : os with
      | nil => exact absurd h hosne
      | cons a b => exact ⟨a, b, rfl⟩
    obtain ⟨tail, htail⟩ := objsChars_cons_shape o1 os1
    have htail2 : objsChars os = '{' :: tail := by rw [ho1, htail]
    have harr : arrChars (o1 :: os1) = '[' :: objsChars (o1 :: os1) ++ [']'] := rfl
    have hstr : sessionsJsonString (s0 :: l0) = ⟨'[' :: '{' :: (tail ++ [']'])⟩ := by
      rw [sessionsJsonString, ← hos, ho1, harr, htail]
      simp
    rw [hstr]
    show (match parseObjList ('[' :: '{' :: (tail ++ [']'])).length ('{' :: (tail ++ [']'])) with
      | some (os2, []) => some (os2.map sessionOfPairs)
      | _ => none) = some (s0 :: l0)
    have hback : ('{' :: (tail ++ [']']) : List Char) = objsChars os ++ ']' :: [] := by
      rw [htail2]
      simp
    rw [hback]
    have hfuel2 : sizeObjs os ≤ ('[' :: (objsChars os ++ ']' :: [])).length := by
      have h1 := objsChars_length os
      simp only [List.length_cons, List.length_append]
      omega
    rw [parseObjList_objsChars os hosne [] _ hfuel2]
    show some (((s0 :: l0).map sessionPairs).map sessionOfPairs) = some (s0 :: l0)
    rw [List.map_map, hcomp, List.map_id]

/-! ## Lemmas: JS string helpers -/

theorem jsOr_empty_right (s : String) : jsOr s "" = s := by
  by_cases h : s = "" <;> simp [jsOr, truthy, h]

theorem jsOr_of_ne_empty (s b : String) (h : s ≠ "") : jsOr s b = s := by
  simp [jsOr, truthy, h]

theorem intToDecString_ne_empty (n : Int) : intToDecString n ≠ "" := by
  have h := natDecChars_ne_nil n.natAbs n.natAbs
  intro hcontra
  unfold intToDecString natToDecString at hcontra
  by_cases hn : n < 0
  · rw [if_pos hn] at hcontra
    have h2 : ('-' :: natDecChars (n.natAbs + 1) n.natAbs : List Char) = [] :=
      congrArg String.data hcontra
    simp at h2
  · rw [if_neg hn] at hcontra
    exact h (congrArg String.data hcontra)

theorem sessionsJsonString_ne_empty (l : List WorkSession) : sessionsJsonString l ≠ "" := by
  intro hcontra
  have hdata : (sessionsJsonString l).data = [] := by rw [hcontra]
  cases l with
  | nil => simp [sessionsJsonString, arrChars] at hdata
  | cons s0 l0 =>
    obtain ⟨o1, os1, ho⟩ : ∃ o1 os1, (s0 :: l0).map sessionPairs = o1 :: os1 :=
      ⟨_, _, rfl⟩
    rw [sessionsJsonString] at hdata
    rw [show (String.mk (arrChars ((s0 :: l0).map sessionPairs))).data
        = arrChars ((s0 :: l0).map sessionPairs) from rfl, ho] at hdata
    rw [show arrChars (o1 :: os1) = '[' :: objsChars (o1 :: os1) ++ [']'] from rfl] at hdata
    simp at hdata

/-! ## Claim theorems: the work-item row codec (C1) -/

/-- C1 counterexample: the claim that `decode(encode(x))` reproduces every
field of `x` except `id` and `updatedAt` fails as stated.  For an item
whose optional `startDate` is absent, encode writes the empty string and
decode reconstructs the present-but-empty date `some ""`, not the absent
`none` — so the `startDate` field of the round-tripped item differs from
the original. -/
theorem c1_decode_encode_counterexample :
    (decodeWorkItemRow "profiles" "2024-02-02T00:00:00Z" 0
      (encodeWorkItemRow "2024-01-15T00:00:00Z"
        { id := "x", name := "A", owner := "B", status := "In Progress"
        , priority := "High", startDate := none, dueDate := some ""
        , progress := some 0, notes := some "", createdAt := some "2024-01-01"
        , collapsed := some true, workSessions := some []
        , calendarSynced := some false })).startDate ≠ none := by
  decide

/-- C1 (amended): for every work item whose status and priority are
non-blank, whose optional fields (`startDate`, `dueDate`, `progress`,
`notes`, `workSessions`) are materialized (empty string, 0 and `[]`
count as materialized), and whose `createdAt` is a non-blank present
string, decoding the encoded row reproduces `name`, `owner`, `status`,
`priority`, `startDate`, `dueDate`, `progress`, `notes`, `createdAt` and
`workSessions` exactly, for any encode-time and decode-time clocks and
any bucket and row index; the reconstructed `id` is derived from the
bucket and row index.  (When an optional field is absent, decode instead
materializes the documented default, as the counterexample shows.) -/
theorem c1_decode_encode (x : WorkItem) (bucket encNow decNow : String) (idx : Nat)
    (hst : x.status ≠ "") (hpr : x.priority ≠ "")
    (hsd : x.startDate.isSome) (hdd : x.dueDate.isSome)
    (hpg : x.progress.isSome) (hnt : x.notes.isSome)
    (hca : ∃ c, x.createdAt = some c ∧ c ≠ "")
    (hws : x.workSessions.isSome) :
    (decodeWorkItemRow bucket decNow idx (encodeWorkItemRow encNow x)).name = x.name ∧
    (decodeWorkItemRow bucket decNow idx (encodeWorkItemRow encNow x)).owner = x.owner ∧
    (decodeWorkItemRow bucket decNow idx (encodeWorkItemRow encNow x)).status = x.status ∧
    (decodeWorkItemRow bucket decNow idx (encodeWorkItemRow encNow x)).priority = x.priority ∧
    (decodeWorkItemRow bucket decNow idx (encodeWorkItemRow encNow x)).startDate = x.startDate ∧
    (decodeWorkItemRow bucket decNow idx (encodeWorkItemRow encNow x)).dueDate = x.dueDate ∧
    (decodeWorkItemRow bucket decNow idx (encodeWorkItemRow encNow x)).progress = x.progress ∧
    (decodeWorkItemRow bucket decNow idx (encodeWorkItemRow encNow x)).notes = x.notes ∧
    (decodeWorkItemRow bucket decNow idx (encodeWorkItemRow encNow x)).createdAt = x.createdAt ∧
    (decodeWorkItemRow bucket decNow idx (encodeWorkItemRow encNow x)).workSessions
      = x.workSessions ∧
    (decodeWorkItemRow bucket decNow idx (encodeWorkItemRow encNow x)).id
      = bucket ++ "-" ++ natToDecString idx := by
  obtain ⟨sd, hsd'⟩ := Option.isSome_iff_exists.mp hsd
  obtain ⟨dd, hdd'⟩ := Option.isSome_iff_exists.mp hdd
  obtain ⟨pg, hpg'⟩ := Option.isSome_iff_exists.mp hpg
  obtain ⟨nt, hnt'⟩ := Option.isSome_iff_exists.mp hnt
  obtain ⟨ca, hca', hcane⟩ := hca
  obtain ⟨ws, hws'⟩ := Option.isSome_iff_exists.mp hws
  have hrow : encodeWorkItemRow encNow x =
      [ x.name, x.owner, x.status, x.priority, sd, dd, intToDecString pg, nt, ca
      , encNow, sessionsJsonString ws ] := by
    simp [encodeWorkItemRow, hsd', hdd', hpg', hnt', hca', hws',
      jsOr_of_ne_empty _ _ (intToDecString_ne_empty pg), jsOr_of_ne_empty _ _ hcane]
  rw [hrow]
  have hcell10 : truthy (sessionsJsonString ws) = true := by
    simp [truthy, sessionsJsonString_ne_empty ws]
  refine ⟨?_, ?_, ?_, ?_, ?_, ?_, ?_, ?_, ?_, ?_, ?_⟩ <;>
    simp [decodeWorkItemRow, List.getD, jsOr_empty_right, jsOr_of_ne_empty _ _ hst,
      jsOr_of_ne_empty _ _ hpr, jsOr_of_ne_empty _ _ hcane, hcell10,
      jsOr_of_ne_empty _ _ (intToDecString_ne_empty pg), jsParseInt_intToDecString,
      parseSessionsJson_sessionsJsonString, hsd', hdd', hpg', hnt', hca', hws']

/-- C1 witness: the amended round trip at a concrete fully-materialized
item, with a nonempty session list exercising the JSON codec. -/
theorem c1_decode_encode_witness :
    (decodeWorkItemRow "contracts" "D" 7
      (encodeWorkItemRow "E"
        { id := "old-id", name := "Adopt SSO", owner := "Zak"
        , status := "In Progress", priority := "High"
        , startDate := some "2024-01-01", dueDate := some "2024-02-01"
        , progress := some 35, notes := some "phase 1"
        , createdAt := some "2023-12-31"
        , collapsed := some false
        , workSessions := some
            [{ id := "s1", calendarEventId := some "ev9", date := "2024-01-03"
             , startTime := "09:00", endTime := "10:30", notes := some "kickoff" }]
        , calendarSynced := some true })).name = "Adopt SSO" ∧
    (decodeWorkItemRow "contracts" "D" 7
      (encodeWorkItemRow "E"
        { id := "old-id", name := "Adopt SSO", owner := "Zak"
        , status := "In Progress", priority := "High"
        , startDate := some "2024-01-01", dueDate := some "2024-02-01"
        , progress := some 35, notes := some "phase 1"
        , createdAt := some "2023-12-31"
        , collapsed := some false
        , workSessions := some
            [{ id := "s1", calendarEventId := some "ev9", date := "2024-01-03"
             , startTime := "09:00", endTime := "10:30", notes := some "kickoff" }]
        , calendarSynced := some true })).workSessions = some
            [{ id := "s1", calendarEventId := some "ev9", date := "2024-01-03"
             , startTime := "09:00", endTime := "10:30", notes := some "kickoff" }] := by
  have h := c1_decode_encode
    { id := "old-id", name := "Adopt SSO", owner := "Zak"
    , status := "In Progress", priority := "High"
    , startDate := some "2024-01-01", dueDate := some "2024-02-01"
    , progress := some 35, notes := some "phase 1"
    , createdAt := some "2023-12-31"
    , collapsed := some false
    , workSessions := some
        [{ id := "s1", calendarEventId := some "ev9", date := "2024-01-03"
         , startTime := "09:00", endTime := "10:30", notes := some "kickoff" }]
    , calendarSynced := some true }
    "contracts" "E" "D" 7
    (by decide) (by decide) (by decide) (by decide) (by decide) (by decide)
    ⟨"2023-12-31", rfl, by decide⟩ (by decide)
  exact ⟨h.1, h.2.2.2.2.2.2.2.2.2.1⟩

/-! ## Lemmas: the table sync engine -/

theorem syncWorkloadItems_ok (cfg : Option SheetsConfig) (auth : Bool)
    (now bucketKey : String) (items : List WorkItem)
    (hcfg : hasSpreadsheet cfg = true) (hauth : auth = true) :
    syncWorkloadItems cfg auth now bucketKey items =
      .ok (SheetOp.clearRange (getSheetNameForBucket bucketKey) ::
        (if 0 < items.length then
          [SheetOp.updateRows (getSheetNameForBucket bucketKey) 2
            (items.map (encodeWorkItemRow now))]
        else [])) := by
  simp [syncWorkloadItems, hcfg, hauth]

theorem applyOps_clear_then_update (prior : Table) (sheet : String)
    (vs : Table) :
    applyOps prior (SheetOp.clearRange sheet ::
      (if 0 < vs.length then [SheetOp.updateRows sheet 2 vs] else [])) = vs := by
  cases vs with
  | nil => simp [applyOps, applyOp]
  | cons v vs2 => simp [applyOps, applyOp, overwriteFrom]

theorem encodeWorkItemRow_col_time_indep (x : WorkItem) (t1 t2 : String) (j : Nat)
    (hj8 : j ≠ 8) (hj9 : j ≠ 9) :
    (encodeWorkItemRow t1 x).getD j "" = (encodeWorkItemRow t2 x).getD j "" := by
  rcases j with _|_|_|_|_|_|_|_|_|_|j
  · rfl
  · rfl
  · rfl
  · rfl
  · rfl
  · rfl
  · rfl
  · rfl
  · exact absurd rfl hj8
  · exact absurd rfl hj9
  · cases j <;> rfl

theorem encodeWorkItemRow_col8_createdAt (x : WorkItem) (t : String) (c : String)
    (hc : x.createdAt = some c) (hne : c ≠ "") :
    (encodeWorkItemRow t x).getD 8 "" = c := by
  simp [encodeWorkItemRow, hc, jsOr_of_ne_empty _ _ hne]

theorem map_getD_row (f : WorkItem → List String) (items : List WorkItem) (i : Nat) :
    (items.map f).getD i [] = ((items.get? i).map f).getD [] := by
  rw [List.getD_eq_getElem?_getD, ← List.get?_eq_getElem?, List.get?_map]

theorem mapWithIdx_length (f : Nat → α → β) : ∀ (k : Nat) (l : List α),
    (mapWithIdx f k l).length = l.length := by
  intro k l
  induction l generalizing k with
  | nil => rfl
  | cons a as ih => simp [mapWithIdx, ih]

theorem mapWithIdx_get? (f : Nat → α → β) : ∀ (l : List α) (k i : Nat),
    (mapWithIdx f k l).get? i = (l.get? i).map (f (k + i)) := by
  intro l
  induction l with
  | nil => intro k i; cases i <;> rfl
  | cons a as ih =>
    intro k i
    cases i with
    | zero => rfl
    | succ i =>
      show (mapWithIdx f (k + 1) as).get? i = (as.get? i).map (f (k + (i + 1)))
      rw [ih (k + 1) i]
      have harith : k + 1 + i = k + (i + 1) := by omega
      rw [harith]

/-! ## Claim theorems: the table sync engine (C5, C6, C7, C8) -/

/-- C5: whenever `syncWorkloadItems` succeeds, the operation sequence it
issues begins with the clear of the bucket table's data region; the write
of the encoded items (in array order, starting at row 2) is issued only
when the item list is non-empty and comes strictly after the clear; and
interpreting the sequence against any prior remote table yields exactly
the encoded items — no remote row survives the sync. -/
theorem c5_sync_clear_before_write (cfg : Option SheetsConfig) (auth : Bool)
    (now bucketKey : String) (items : List WorkItem)
    (hcfg : hasSpreadsheet cfg = true) (hauth : auth = true) :
    ∃ ops, syncWorkloadItems cfg auth now bucketKey items = .ok ops ∧
      ops.head? = some (SheetOp.clearRange (getSheetNameForBucket bucketKey)) ∧
      (items ≠ [] →
        ops = [SheetOp.clearRange (getSheetNameForBucket bucketKey),
               SheetOp.updateRows (getSheetNameForBucket bucketKey) 2
                 (items.map (encodeWorkItemRow now))]) ∧
      (items = [] → ops = [SheetOp.clearRange (getSheetNameForBucket bucketKey)]) ∧
      ∀ prior : Table, applyOps prior ops = items.map (encodeWorkItemRow now) := by
  refine ⟨_, syncWorkloadItems_ok cfg auth now bucketKey items hcfg hauth, ?_, ?_, ?_, ?_⟩
  · rfl
  · intro hne
    cases items with
    | nil => exact absurd rfl hne
    | cons a as => simp
  · intro hnil
    subst hnil
    simp
  · intro prior
    rw [show (items.map (encodeWorkItemRow now)) =
      (items.map (encodeWorkItemRow now)) from rfl]
    have := applyOps_clear_then_update prior (getSheetNameForBucket bucketKey)
      (items.map (encodeWorkItemRow now))
    simpa using this

/-- C5 witness: the clear-then-write sequence at a concrete configured,
authenticated sync of one item. -/
theorem c5_sync_clear_before_write_witness :
    ∃ ops, syncWorkloadItems (some { spreadsheetId := "S" }) true "NOW" "profiles"
        [{ id := "a", name := "N", owner := "O", status := "In Progress"
         , priority := "High", startDate := some "2024-01-01", dueDate := none
         , progress := some 5, notes := none, createdAt := some "C"
         , collapsed := none, workSessions := some [], calendarSynced := none }] = .ok ops ∧
      ops.head? = some (SheetOp.clearRange "Profiles") ∧
      ([{ id := "a", name := "N", owner := "O", status := "In Progress"
        , priority := "High", startDate := some "2024-01-01", dueDate := none
        , progress := some 5, notes := none, createdAt := some "C"
        , collapsed := none, workSessions := some [], calendarSynced := none }]
          : List WorkItem) ≠ [] ∧
      applyOps [["stale", "remote", "row"]] ops =
        [{ id := "a", name := "N", owner := "O", status := "In Progress"
         , priority := "High", startDate := some "2024-01-01", dueDate := none
         , progress := some 5, notes := none, createdAt := some "C"
         , collapsed := none, workSessions := some [], calendarSynced := none }].map
          (encodeWorkItemRow "NOW") := by
  obtain ⟨ops, hok, hhead, _, _, happly⟩ := c5_sync_clear_before_write
    (some { spreadsheetId := "S" }) true "NOW" "profiles"
    [{ id := "a", name := "N", owner := "O", status := "In Progress"
     , priority := "High", startDate := some "2024-01-01", dueDate := none
     , progress := some 5, notes := none, createdAt := some "C"
     , collapsed := none, workSessions := some [], calendarSynced := none }]
    (by decide) rfl
  exact ⟨ops, hok, hhead, by decide, happly [["stale", "remote", "row"]]⟩

/-- C6 counterexample: calling sync twice in a row with the same unchanged
item list does not produce the same remote row content when the clock has
advanced between the calls — the updated-at column holds each call's
timestamp, so the written rows differ. -/
theorem c6_sync_idempotent_counterexample :
    (syncWorkloadItems (some { spreadsheetId := "S" }) true "2024-01-01T00:00:00Z"
        "profiles"
        [{ id := "a", name := "N", owner := "O", status := "In Progress"
         , priority := "High", startDate := some "2024-01-01", dueDate := none
         , progress := some 5, notes := none, createdAt := some "C"
         , collapsed := none, workSessions := some [], calendarSynced := none }]).toOption.map
      (applyOps []) ≠
    (syncWorkloadItems (some { spreadsheetId := "S" }) true "2024-01-01T00:05:00Z"
        "profiles"
        [{ id := "a", name := "N", owner := "O", status := "In Progress"
         , priority := "High", startDate := some "2024-01-01", dueDate := none
         , progress := some 5, notes := none, createdAt := some "C"
         , collapsed := none, workSessions := some [], calendarSynced := none }]).toOption.map
      (applyOps []) := by
  decide

/-- C6 (amended): calling sync twice in a row with the same unchanged item
list produces the same remote row content both times on every column
except the updated-at column (column index 9), which holds each call's
timestamp — and except the created-at column (index 8) for items whose
`createdAt` is absent or blank, which also falls back to the clock.  With
an unchanged clock the two contents are identical. -/
theorem c6_sync_idempotent (cfg : Option SheetsConfig) (auth : Bool)
    (t1 t2 bucketKey : String) (items : List WorkItem)
    (hcfg : hasSpreadsheet cfg = true) (hauth : auth = true)
    (ops1 ops2 : List SheetOp)
    (h1 : syncWorkloadItems cfg auth t1 bucketKey items = .ok ops1)
    (h2 : syncWorkloadItems cfg auth t2 bucketKey items = .ok ops2)
    (prior1 prior2 : Table) :
    (applyOps prior1 ops1).length = (applyOps prior2 ops2).length ∧
    (∀ i j, j ≠ 8 → j ≠ 9 →
      ((applyOps prior1 ops1).getD i []).getD j ""
        = ((applyOps prior2 ops2).getD i []).getD j "") ∧
    (∀ i it c, items.get? i = some it → it.createdAt = some c → c ≠ "" →
      ((applyOps prior1 ops1).getD i []).getD 8 ""
        = ((applyOps prior2 ops2).getD i []).getD 8 "") ∧
    (t1 = t2 → applyOps prior1 ops1 = applyOps prior2 ops2) := by
  rw [syncWorkloadItems_ok cfg auth t1 bucketKey items hcfg hauth] at h1
  rw [syncWorkloadItems_ok cfg auth t2 bucketKey items hcfg hauth] at h2
  have e1 : ops1 = SheetOp.clearRange (getSheetNameForBucket bucketKey) ::
      (if 0 < items.length then
        [SheetOp.updateRows (getSheetNameForBucket bucketKey) 2
          (items.map (encodeWorkItemRow t1))] else []) := by
    injection h1 with h
    exact h.symm
  have e2 : ops2 = SheetOp.clearRange (getSheetNameForBucket bucketKey) ::
      (if 0 < items.length then
        [SheetOp.updateRows (getSheetNameForBucket bucketKey) 2
          (items.map (encodeWorkItemRow t2))] else []) := by
    injection h2 with h
    exact h.symm
  have ha1 : applyOps prior1 ops1 = items.map (encodeWorkItemRow t1) := by
    rw [e1]
    have := applyOps_clear_then_update prior1 (getSheetNameForBucket bucketKey)
      (items.map (encodeWorkItemRow t1))
    simpa using this
  have ha2 : applyOps prior2 ops2 = items.map (encodeWorkItemRow t2) := by
    rw [e2]
    have := applyOps_clear_then_update prior2 (getSheetNameForBucket bucketKey)
      (items.map (encodeWorkItemRow t2))
    simpa using this
  rw [ha1, ha2]
  refine ⟨by simp, ?_, ?_, ?_⟩
  · intro i j hj8 hj9
    rw [map_getD_row, map_getD_row]
    cases hget : items.get? i with
    | none => rfl
    | some it =>
      show (encodeWorkItemRow t1 it).getD j "" = (encodeWorkItemRow t2 it).getD j ""
      exact encodeWorkItemRow_col_time_indep it t1 t2 j hj8 hj9
  · intro i it c hget hc hcne
    rw [map_getD_row, map_getD_row, hget]
    show (encodeWorkItemRow t1 it).getD 8 "" = (encodeWorkItemRow t2 it).getD 8 ""
    rw [encodeWorkItemRow_col8_createdAt it t1 c hc hcne,
      encodeWorkItemRow_col8_createdAt it t2 c hc hcne]
  · intro ht
    rw [ht]

/-- C6 witness: the amended statement at a concrete sync pair. -/
theorem c6_sync_idempotent_witness :
    ((applyOps [] [SheetOp.clearRange "Profiles",
        SheetOp.updateRows "Profiles" 2
          ([{ id := "a", name := "N", owner := "O", status := "In Progress"
            , priority := "High", startDate := some "2024-01-01", dueDate := none
            , progress := some 5, notes := none, createdAt := some "C"
            , collapsed := none, workSessions := some [], calendarSynced := none }].map
            (encodeWorkItemRow "T1"))]).getD 0 []).getD 0 ""
      = ((applyOps [["old"]] [SheetOp.clearRange "Profiles",
        SheetOp.updateRows "Profiles" 2
          ([{ id := "a", name := "N", owner := "O", status := "In Progress"
            , priority := "High", startDate := some "2024-01-01", dueDate := none
            , progress := some 5, notes := none, createdAt := some "C"
            , collapsed := none, workSessions := some [], calendarSynced := none }].map
            (encodeWorkItemRow "T2"))]).getD 0 []).getD 0 "" := by
  have h := c6_sync_idempotent (some { spreadsheetId := "S" }) true "T1" "T2" "profiles"
    [{ id := "a", name := "N", owner := "O", status := "In Progress"
     , priority := "High", startDate := some "2024-01-01", dueDate := none
     , progress := some 5, notes := none, createdAt := some "C"
     , collapsed := none, workSessions := some [], calendarSynced := none }]
    (by decide) rfl
    [SheetOp.clearRange "Profiles",
      SheetOp.updateRows "Profiles" 2
        ([{ id := "a", name := "N", owner := "O", status := "In Progress"
          , priority := "High", startDate := some "2024-01-01", dueDate := none
          , progress := some 5, notes := none, createdAt := some "C"
          , collapsed := none, workSessions := some [], calendarSynced := none }].map
          (encodeWorkItemRow "T1"))]
    [SheetOp.clearRange "Profiles",
      SheetOp.updateRows "Profiles" 2
        ([{ id := "a", name := "N", owner := "O", status := "In Progress"
          , priority := "High", startDate := some "2024-01-01", dueDate := none
          , progress := some 5, notes := none, createdAt := some "C"
          , collapsed := none, workSessions := some [], calendarSynced := none }].map
          (encodeWorkItemRow "T2"))]
    (by rw [syncWorkloadItems_ok _ _ _ _ _ (by decide) rfl]; rfl)
    (by rw [syncWorkloadItems_ok _ _ _ _ _ (by decide) rfl]; rfl)
    [] [["old"]]
  exact h.2.1 0 0 (by decide) (by decide)

/-- C7: `loadWorkloadItems` returns the decoded items in row order — the
result has one item per fetched row and its i-th element is the decode of
the i-th row at index i — and returns the empty list rather than failing
when no spreadsheet is configured or when the fetch fails. -/
theorem c7_load_rows (cfg : Option SheetsConfig) (now bucketKey msg : String)
    (rows : Table) :
    (hasSpreadsheet cfg = false →
      loadWorkloadItems cfg now bucketKey (FetchResult.rows rows) = []) ∧
    (hasSpreadsheet cfg = false →
      loadWorkloadItems cfg now bucketKey (FetchResult.err msg) = []) ∧
    loadWorkloadItems cfg now bucketKey (FetchResult.err msg) = [] ∧
    loadWorkloadItems cfg now bucketKey FetchResult.noValues = [] ∧
    (hasSpreadsheet cfg = true →
      (loadWorkloadItems cfg now bucketKey (FetchResult.rows rows)).length = rows.length ∧
      ∀ i, (loadWorkloadItems cfg now bucketKey (FetchResult.rows rows)).get? i
        = (rows.get? i).map (decodeWorkItemRow bucketKey now i)) := by
  refine ⟨?_, ?_, ?_, ?_, ?_⟩
  · intro h
    simp [loadWorkloadItems, h]
  · intro h
    simp [loadWorkloadItems, h]
  · by_cases h : hasSpreadsheet cfg = true <;> simp [loadWorkloadItems, h]
  · by_cases h : hasSpreadsheet cfg = true <;> simp [loadWorkloadItems, h, mapWithIdx]
  · intro h
    constructor
    · simp [loadWorkloadItems, h, mapWithIdx_length]
    · intro i
      simp only [loadWorkloadItems, h]
      rw [if_neg (by simp [h])]
      rw [mapWithIdx_get? (decodeWorkItemRow bucketKey now) rows 0 i]
      simp

/-- C7 witness: a two-row fetch decodes to two items in row order; an
unconfigured store and a failed fetch both load as empty. -/
theorem c7_load_rows_witness :
    loadWorkloadItems none "NOW" "profiles"
      (FetchResult.rows [["A"], ["B"]]) = [] ∧
    loadWorkloadItems (some { spreadsheetId := "S" }) "NOW" "profiles"
      (FetchResult.err "boom") = [] ∧
    (loadWorkloadItems (some { spreadsheetId := "S" }) "NOW" "profiles"
      (FetchResult.rows [["A"], ["B"]])).length = 2 ∧
    (loadWorkloadItems (some { spreadsheetId := "S" }) "NOW" "profiles"
      (FetchResult.rows [["A"], ["B"]])).get? 1
        = some (decodeWorkItemRow "profiles" "NOW" 1 ["B"]) := by
  have h := c7_load_rows none "NOW" "profiles" "boom" [["A"], ["B"]]
  have h2 := c7_load_rows (some { spreadsheetId := "S" }) "NOW" "profiles" "boom"
    [["A"], ["B"]]
  refine ⟨h.1 (by decide), h2.2.2.1, (h2.2.2.2.2 (by decide)).1, ?_⟩
  rw [(h2.2.2.2.2 (by decide)).2 1]
  rfl

/-- C8: in `loadWorkloadItems` row decoding, the sessions cell is
JSON-decoded only when the row extends past the base ten columns and the
cell is non-blank; a parse failure of that cell is swallowed into the
empty session list, and the row still decodes (the remaining fields are
unaffected), so neither the row nor the bucket load fails.  The literal
`"[\x7b]"` is a concrete cell on which the parse does fail. -/
theorem c8_sessions_error_swallowed (bucketKey now : String) (idx : Nat)
    (row : List String) :
    (¬(row.length > 10 ∧ truthy (row.getD 10 "") = true) →
      (decodeWorkItemRow bucketKey now idx row).workSessions = some []) ∧
    (parseSessionsJson (row.getD 10 "") = none →
      (decodeWorkItemRow bucketKey now idx row).workSessions = some []) ∧
    (∀ l, row.length > 10 → truthy (row.getD 10 "") = true →
      parseSessionsJson (row.getD 10 "") = some l →
      (decodeWorkItemRow bucketKey now idx row).workSessions = some l) ∧
    (decodeWorkItemRow bucketKey now idx row).name = jsOr (row.getD 0 "") "" ∧
    (decodeWorkItemRow bucketKey now idx row).id
      = bucketKey ++ "-" ++ natToDecString idx ∧
    parseSessionsJson "[\x7b]" = none := by
  refine ⟨?_, ?_, ?_, rfl, rfl, by decide⟩
  · intro h
    simp only [decodeWorkItemRow]
    rw [if_neg ?_]
    · intro hc
      exact h ⟨hc.1, by simpa using hc.2⟩
  · intro hp
    simp only [decodeWorkItemRow]
    by_cases h : row.length > 10 ∧ truthy (row.getD 10 "") = true
    · rw [if_pos (show _ ∧ _ from ⟨h.1, h.2⟩), hp]
    · rw [if_neg ?_]
      intro hc
      exact h ⟨hc.1, by simpa using hc.2⟩
  · intro l hlen htr hp
    simp only [decodeWorkItemRow]
    rw [if_pos (show _ ∧ _ from ⟨hlen, htr⟩), hp]

/-- C8 witness: a row whose sessions cell is malformed JSON decodes with an
empty session list while the other fields decode normally. -/
theorem c8_sessions_error_swallowed_witness :
    (decodeWorkItemRow "projects" "NOW" 2
      ["N", "O", "S", "P", "", "", "5", "", "C", "T", "[\x7b]"]).workSessions = some [] ∧
    (decodeWorkItemRow "projects" "NOW" 2
      ["N", "O", "S", "P", "", "", "5", "", "C", "T", "[\x7b]"]).name = "N" := by
  have h := c8_sessions_error_swallowed "projects" "NOW" 2
    ["N", "O", "S", "P", "", "", "5", "", "C", "T", "[\x7b]"]
  refine ⟨h.2.1 (by decide), ?_⟩
  rw [h.2.2.2.1]
  decide

/-! ## Claim theorems: the progress range (C9) -/

/-- C9 counterexample: the claim that `progress` always lies in `[0, 100]`
fails — decoding a row whose progress cell is `"150"` stores 150 with no
clamping. -/
theorem c9_progress_counterexample :
    (decodeWorkItemRow "profiles" "NOW" 0
      ["Item", "Own", "In Progress", "High", "", "", "150", "", "2024-01-01", "",
        "[]"]).progress = some 150 ∧ ¬((150 : Int) ≤ 100) := by
  exact ⟨by decide, by decide⟩

/-- C9 (amended): `progress` is stored without clamping — decoding a row
whose progress cell is the decimal string of any integer `n` yields
exactly `n` (even outside `[0, 100]`), and a local edit through
`updateItem` stores the patched progress verbatim — so progress lies in
`[0, 100]` only when the source value does. -/
theorem c9_progress_unclamped (bucketKey now : String) (idx : Nat)
    (row : List String) (n : Int) (items : List WorkItem) (id : String)
    (patch : WorkItemPatch) :
    (row.getD 6 "" = intToDecString n →
      (decodeWorkItemRow bucketKey now idx row).progress = some n) ∧
    updateItem items id patch
      = items.map (fun it => if it.id = id then applyPatch it patch else it) ∧
    (∀ it p, patch.progress = some p → (applyPatch it patch).progress = p) := by
  refine ⟨?_, rfl, ?_⟩
  · intro hcell
    simp only [decodeWorkItemRow, hcell]
    rw [jsOr_of_ne_empty _ _ (intToDecString_ne_empty n),
      jsParseInt_intToDecString]
  · intro it p hp
    simp [applyPatch, hp]

/-- C9 witness: the amended statement at progress 150, a decode cell
`"150"` and a patch setting progress to 150. -/
theorem c9_progress_unclamped_witness :
    (decodeWorkItemRow "profiles" "NOW" 0
      ["Item", "Own", "In Progress", "High", "", "", "150", "", "C", "", "[]"]).progress
      = some 150 ∧
    (applyPatch
      { id := "a", name := "N", owner := "O", status := "S", priority := "P"
      , startDate := none, dueDate := none, progress := some 10, notes := none
      , createdAt := none, collapsed := none, workSessions := none
      , calendarSynced := none }
      { progress := some (some 150) }).progress = some 150 := by
  have h := c9_progress_unclamped "profiles" "NOW" 0
    ["Item", "Own", "In Progress", "High", "", "", "150", "", "C", "", "[]"]
    150 [] "a" { progress := some (some 150) }
  exact ⟨h.1 (by decide), h.2.2 _ (some 150) rfl⟩

/-! ## Lemmas: the status classifier

A string that `Number(...)` accepts contains only characters of
`numAllowedChar`; every classifier keyword contains a character outside
that set, so the substring checks cannot fire on a numeric cell.  This
makes the source's flag computation (which ORs the numeric test with the
substring tests) agree with the spec's numeric-first classification. -/

theorem mem_dropWhile_or (p : Char → Bool) :
    ∀ (l : List Char) (c : Char), c ∈ l → c ∈ l.dropWhile p ∨ p c = true := by
  intro l
  induction l with
  | nil => simp
  | cons a t ih =>
    intro c hc
    by_cases hpa : p a = true
    · rcases List.mem_cons.mp hc with rfl | hmem
      · right
        exact hpa
      · rcases ih c hmem with h1 | h1
        · left
          simpa [List.dropWhile_cons, hpa] using h1
        · right
          exact h1
    · left
      simpa [List.dropWhile_cons, hpa] using hc

theorem mem_trim_or (l : List Char) (c : Char) (hc : c ∈ l) :
    c ∈ trimChars l ∨ jsWs c = true := by
  unfold trimChars
  rcases mem_dropWhile_or jsWs l c hc with h1 | h1
  · have h2 : c ∈ (l.dropWhile jsWs).reverse := by simpa using h1
    rcases mem_dropWhile_or jsWs _ c h2 with h3 | h3
    · left
      simpa using h3
    · right
      exact h3
  · right
    exact h1

theorem isDigit_of_between (c : Char) (h1 : '0' ≤ c) (h2 : c ≤ '9') :
    c.isDigit = true := by
  simp only [Char.isDigit]
  rw [Bool.and_eq_true, decide_eq_true_eq, decide_eq_true_eq]
  exact ⟨h1, h2⟩

theorem numStep_allowed (st st' : NumSt) (ch : Char)
    (h : numStep st ch = some st') : numAllowedChar ch = true := by
  by_cases hd : ch.isDigit = true
  · simp [numAllowedChar, hd]
  · unfold numStep at h
    split_ifs at h <;>
      first
      | exact Option.noConfusion h
      | exact absurd (by assumption) hd
      | (rename_i hcond; rcases hcond with ⟨rfl | rfl, -⟩ <;> decide)
      | (rename_i hcond; obtain rfl := hcond; decide)

theorem numRun_none : ∀ cs : List Char, numRun none cs = none := by
  intro cs
  cases cs <;> rfl

theorem numRun_allowed :
    ∀ (cs : List Char) (st st' : NumSt), numRun (some st) cs = some st' →
      ∀ c ∈ cs, numAllowedChar c = true := by
  intro cs
  induction cs with
  | nil => simp
  | cons a t ih =>
    intro st st' h c hc
    rw [show numRun (some st) (a :: t) = numRun (numStep st a) t from rfl] at h
    cases hstep : numStep st a with
    | none =>
      rw [hstep, numRun_none] at h
      exact absurd h (by simp)
    | some st1 =>
      rw [hstep] at h
      rcases List.mem_cons.mp hc with rfl | hmem
      · exact numStep_allowed st st1 c hstep
      · exact ih st1 st' h c hmem

theorem parseDecNum_chars (cs : List Char) (q : Rat) (h : parseDecNum cs = some q) :
    ∀ c ∈ cs, numAllowedChar c = true := by
  unfold parseDecNum at h
  cases hrun : numRun (some numInit) cs with
  | none =>
    rw [hrun] at h
    exact absurd h (by simp)
  | some st =>
    exact numRun_allowed cs numInit st hrun

theorem isRadixDigit_allowed (r : Nat) (c : Char) (h : isRadixDigit r c = true) :
    numAllowedChar c = true := by
  unfold isRadixDigit at h
  split_ifs at h with h16 h8
  · simp only [Bool.or_eq_true] at h
    rcases h with (hd | hf) | hF
    · simp [numAllowedChar, hd]
    · simp [numAllowedChar, hf]
    · simp [numAllowedChar, hF]
  · rw [decide_eq_true_eq] at h
    have hd := isDigit_of_between c h.1 (le_trans h.2 (by decide))
    simp [numAllowedChar, hd]
  · rw [decide_eq_true_eq] at h
    rcases h with rfl | rfl <;> decide

theorem radixNum_chars (r : Nat) (ds : List Char) (q : Rat)
    (h : radixNum r ds = some q) : ∀ c ∈ ds, numAllowedChar c = true := by
  intro c hc
  unfold radixNum at h
  split_ifs at h with hcond
  exact isRadixDigit_allowed r c (by simpa using List.all_eq_true.mp hcond.2 c hc)

theorem numSignedBody_mem (cs : List Char) (c : Char) (hc : c ∈ cs) :
    c ∈ (numSignedBody cs).2 ∨ c = '-' ∨ c = '+' := by
  cases cs with
  | nil => simp at hc
  | cons a t =>
    unfold numSignedBody
    by_cases ha : a = '-'
    · rcases List.mem_cons.mp hc with rfl | hmem
      · right; left; exact ha
      · left; simpa [ha] using hmem
    · by_cases hp : a = '+'
      · rcases List.mem_cons.mp hc with rfl | hmem
        · right; right; exact hp
        · left; simpa [ha, hp] using hmem
      · left
        simpa [ha, hp] using hc

theorem numRadixOf_cons (a b : Char) (t2 : List Char) :
    numRadixOf (a :: b :: t2) =
      if a = '0' then
        if b = 'x' ∨ b = 'X' then 16
        else if b = 'o' ∨ b = 'O' then 8
        else if b = 'b' ∨ b = 'B' then 2
        else 0
      else 0 := rfl

theorem numRadixOf_shape (cs : List Char) (h : numRadixOf cs ≠ 0) :
    ∃ b t2, cs = '0' :: b :: t2 ∧
      (b = 'x' ∨ b = 'X' ∨ b = 'o' ∨ b = 'O' ∨ b = 'b' ∨ b = 'B') := by
  match cs with
  | [] => exact absurd rfl h
  | [a] => exact absurd rfl h
  | a :: b :: t2 =>
    rw [numRadixOf_cons] at h
    by_cases ha : a = '0'
    · subst ha
      by_cases hx : b = 'x' ∨ b = 'X'
      · exact ⟨b, t2, rfl, by tauto⟩
      · by_cases ho : b = 'o' ∨ b = 'O'
        · exact ⟨b, t2, rfl, by tauto⟩
        · by_cases hb : b = 'b' ∨ b = 'B'
          · exact ⟨b, t2, rfl, by tauto⟩
          · rw [if_pos rfl, if_neg hx, if_neg ho, if_neg hb] at h
            exact absurd rfl h
    · rw [if_neg ha] at h
      exact absurd rfl h

theorem jsStrToNum_chars (s : String) (q : Rat) (h : jsStrToNum s = some q) :
    ∀ c ∈ s.data, numAllowedChar c = true := by
  intro c hc
  rcases mem_trim_or s.data c hc with hmem | hws
  case inr => simp [numAllowedChar, hws]
  unfold jsStrToNum at h
  by_cases hnil : trimChars s.data = []
  · rw [hnil] at hmem
    simp at hmem
  rw [if_neg hnil] at h
  by_cases hinf : trimChars s.data = "Infinity".data ∨
      trimChars s.data = "+Infinity".data ∨ trimChars s.data = "-Infinity".data
  · rw [if_pos hinf] at h
    exact absurd h (by simp)
  rw [if_neg hinf] at h
  by_cases hr : numRadixOf (trimChars s.data) ≠ 0
  · rw [if_pos hr] at h
    obtain ⟨b, t2, hshape, hb⟩ := numRadixOf_shape _ hr
    rw [hshape] at hmem h
    rcases List.mem_cons.mp hmem with rfl | hmem2
    · decide
    rcases List.mem_cons.mp hmem2 with rfl | hmem3
    · rcases hb with rfl | rfl | rfl | rfl | rfl | rfl <;> decide
    · exact radixNum_chars _ _ _ h c (by simpa using hmem3)
  · rw [if_neg hr] at h
    cases hdec : parseDecNum (numSignedBody (trimChars s.data)).2 with
    | none =>
      rw [hdec] at h
      exact absurd h (by simp)
    | some q2 =>
      rcases numSignedBody_mem (trimChars s.data) c hmem with hbody | rfl | rfl
      · exact parseDecNum_chars _ _ hdec c hbody
      · decide
      · decide

theorem mem_of_strIncludes (a b : String) (h : strIncludes a b = true) :
    ∀ c ∈ b.data, c ∈ a.data := by
  intro c hc
  unfold strIncludes at h
  rw [List.any_eq_true] at h
  obtain ⟨t, ht, hpre⟩ := h
  rw [List.mem_tails] at ht
  rw [List.isPrefixOf_iff_prefix] at hpre
  exact ht.sublist.subset (hpre.sublist.subset hc)

theorem strIncludes_false_of_num (s kw : String) (q : Rat)
    (h : jsStrToNum s = some q) (bad : Char) (hbad : bad ∈ kw.data)
    (hnot : numAllowedChar bad = false) : strIncludes s kw = false := by
  by_contra hinc
  rw [Bool.not_eq_false] at hinc
  have hmem := mem_of_strIncludes s kw hinc bad hbad
  have hall := jsStrToNum_chars s q h bad hmem
  rw [hall] at hnot
  exact absurd hnot (by simp)

theorem classifyStatusCell_eq_spec (raw : String) :
    classifyStatusCell raw = specClassifyStatusCell raw := by
  unfold classifyStatusCell specClassifyStatusCell
  cases hnum : jsStrToNum (lowerStr raw) with
  | none => simp [hnum]
  | some q =>
    by_cases hempty : lowerStr raw = ""
    · have hq : q = 0 := by
        have h0 : jsStrToNum "" = some 0 := rfl
        rw [hempty] at hnum
        rw [h0] at hnum
        injection hnum with h2
        exact h2.symm
      subst hq
      simp only [hempty, hnum]
      decide
    · have hinc1 := strIncludes_false_of_num (lowerStr raw) "resolved" q hnum 'r'
        (by decide) (by decide)
      have hinc2 := strIncludes_false_of_num (lowerStr raw) "closed" q hnum 'l'
        (by decide) (by decide)
      have hinc3 := strIncludes_false_of_num (lowerStr raw) "complete" q hnum 'm'
        (by decide) (by decide)
      have hinc4 := strIncludes_false_of_num (lowerStr raw) "pending" q hnum 'p'
        (by decide) (by decide)
      have hinc5 := strIncludes_false_of_num (lowerStr raw) "waiting" q hnum 'w'
        (by decide) (by decide)
      have hinc6 := strIncludes_false_of_num (lowerStr raw) "open" q hnum 'p'
        (by decide) (by decide)
      simp only [hnum, hempty, hinc1, hinc2, hinc3, hinc4, hinc5, hinc6]
      by_cases h4 : q = 4 <;> by_cases h5 : q = 5 <;> by_cases h3 : q = 3 <;>
        by_cases h2 : q = 2 <;>
        simp [h4, h5, h3, h2, hempty]

set_option maxHeartbeats 1000000 in
theorem ticketLoop_eq (norm : List (List (String × String))) :
    ∀ (c p o : Rat),
      ticketLoop norm (c, p, o) =
        ( c + ((norm.countP
            (fun r => decide (classifyStatusCell (statusCellOf r) = Cls.completedC)) : Nat) : Rat)
        , p + ((norm.countP
            (fun r => decide (classifyStatusCell (statusCellOf r) = Cls.pendingC)) : Nat) : Rat)
        , o + ((norm.countP
            (fun r => decide (classifyStatusCell (statusCellOf r) = Cls.openC)) : Nat) : Rat)) := by
  induction norm with
  | nil =>
    intro c p o
    simp [ticketLoop]
  | cons r rest ih =>
    intro c p o
    cases hcls : classifyStatusCell (statusCellOf r) with
    | completedC =>
      simp only [ticketLoop, hcls]
      rw [ih (c + 1) p o]
      simp only [List.countP_cons, hcls, Prod.mk.injEq]
      push_cast
      refine ⟨?_, ?_, ?_⟩ <;> simp <;> ring
    | pendingC =>
      simp only [ticketLoop, hcls]
      rw [ih c (p + 1) o]
      simp only [List.countP_cons, hcls, Prod.mk.injEq]
      push_cast
      refine ⟨?_, ?_, ?_⟩ <;> simp <;> ring
    | openC =>
      simp only [ticketLoop, hcls]
      rw [ih c p (o + 1)]
      simp only [List.countP_cons, hcls, Prod.mk.injEq]
      push_cast
      refine ⟨?_, ?_, ?_⟩ <;> simp <;> ring

/-! ## Claim theorems: the TicketList classification (C2) -/

/-- C2: every status cell is classified into exactly one counter and the
source's flag computation agrees with the spec's numeric-first rule
(numeric 4/5 to completed, 3 to pending, 2 to open, other numeric to
open; non-numeric by case-insensitive substring with default open); the
three counters count exactly the rows of each class; the total is the row
count except that a prior GroupSummary total is preserved; and the
sample rows [2, "Resolved", 3, 5, "open"] produce open=2, pending=1,
completed=2, total=5. -/
theorem c2_ticket_list_classification (prior : Option TicketSummary) (now : String)
    (norm : List (List (String × String))) (t : TicketSummary) :
    (∀ raw : String, classifyStatusCell raw = specClassifyStatusCell raw) ∧
    (importTicketList prior now norm).completed
      = ((norm.countP
          (fun r => decide (classifyStatusCell (statusCellOf r) = Cls.completedC)) : Nat) : Rat) ∧
    (importTicketList prior now norm).pending
      = ((norm.countP
          (fun r => decide (classifyStatusCell (statusCellOf r) = Cls.pendingC)) : Nat) : Rat) ∧
    (importTicketList prior now norm).openCount
      = ((norm.countP
          (fun r => decide (classifyStatusCell (statusCellOf r) = Cls.openC)) : Nat) : Rat) ∧
    (prior = none → (importTicketList prior now norm).total = (norm.length : Rat)) ∧
    (prior = some t → t.meta ≠ some "group-summary" →
      (importTicketList prior now norm).total = (norm.length : Rat)) ∧
    (prior = some t → t.meta = some "group-summary" →
      (importTicketList prior now norm).total = t.total) ∧
    (∀ st : Store, st.tickets = none →
      ((importTicketsCsv st now "status\n2\nResolved\n3\n5\nopen").tickets.map
        (fun tt => (tt.total, tt.completed, tt.openCount, tt.pending, tt.meta)))
        = some (5, 2, 2, 1, some "ticket-list")) := by
  have hloop := ticketLoop_eq norm 0 0 0
  refine ⟨classifyStatusCell_eq_spec, ?_, ?_, ?_, ?_, ?_, ?_, ?_⟩
  · show (ticketLoop norm (0, 0, 0)).1 = _
    rw [hloop]
    ring
  · show (ticketLoop norm (0, 0, 0)).2.1 = _
    rw [hloop]
    ring
  · show (ticketLoop norm (0, 0, 0)).2.2 = _
    rw [hloop]
    ring
  · intro hp
    subst hp
    rfl
  · intro hp hmeta
    subst hp
    show (if t.meta = some "group-summary" then t.total else (norm.length : Rat)) = _
    rw [if_neg hmeta]
  · intro hp hmeta
    subst hp
    show (if t.meta = some "group-summary" then t.total else (norm.length : Rat)) = _
    rw [if_pos hmeta]
  · intro st hst
    have hred : importTicketsCsv st now "status\n2\nResolved\n3\n5\nopen" =
        { st with tickets := some (importTicketList st.tickets now
            (normCsv "status\n2\nResolved\n3\n5\nopen")) } := by
      with_unfolding_all rfl
    rw [hred, hst]
    with_unfolding_all rfl

/-- C2 witness: the classification and counters at the sample import. -/
theorem c2_ticket_list_classification_witness :
    classifyStatusCell "Resolved" = specClassifyStatusCell "Resolved" ∧
    (importTicketList none "NOW" []).total = ((0 : Nat) : Rat) ∧
    ((importTicketsCsv { profiles := [], contracts := [], projects := [], tickets := none }
        "NOW" "status\n2\nResolved\n3\n5\nopen").tickets.map
      (fun tt => (tt.total, tt.completed, tt.openCount, tt.pending, tt.meta)))
      = some (5, 2, 2, 1, some "ticket-list") := by
  have h := c2_ticket_list_classification none "NOW" []
    { total := 0, completed := 0, openCount := 0, pending := 0
    , lastImportedAt := none, meta := none, breakdown := none
    , clientResolved := none, employeeResolved := none }
  exact ⟨h.1 "Resolved", by simpa using h.2.2.2.2.1 rfl,
    h.2.2.2.2.2.2.2 { profiles := [], contracts := [], projects := [], tickets := none } rfl⟩

/-! ## Lemmas: the GroupSummary accumulation -/

theorem gsRowAcc_foldl (r : List (String × String)) :
    ∀ (cols : List String) (a b c : Rat) (vs : List (String × Rat)),
      cols.foldl
        (fun acc col =>
          let v := cellNumOf r col
          ( acc.1 + (if strEndsWith col "tickets" && !(strIncludes col "resolved") then v else 0)
          , acc.2.1 + (if col = "client tickets resolved" then v else 0)
          , acc.2.2.1 + (if col = "employee tickets resolved" then v else 0)
          , acc.2.2.2 ++ [(col, v)]))
        (a, b, c, vs) =
      ( a + ((cols.filter
          (fun col => strEndsWith col "tickets" && !(strIncludes col "resolved"))).map
            (cellNumOf r)).sum
      , b + ((cols.filter
          (fun col => decide (col = "client tickets resolved"))).map (cellNumOf r)).sum
      , c + ((cols.filter
          (fun col => decide (col = "employee tickets resolved"))).map (cellNumOf r)).sum
      , vs ++ cols.map (fun col => (col, cellNumOf r col)) ) := by
  intro cols
  induction cols with
  | nil =>
    intro a b c vs
    simp
  | cons col cols ih =>
    intro a b c vs
    rw [List.foldl_cons]
    show (cols.foldl _
      ( a + (if strEndsWith col "tickets" && !(strIncludes col "resolved")
              then cellNumOf r col else 0)
      , b + (if col = "client tickets resolved" then cellNumOf r col else 0)
      , c + (if col = "employee tickets resolved" then cellNumOf r col else 0)
      , vs ++ [(col, cellNumOf r col)])) = _
    rw [ih]
    simp only [Prod.mk.injEq]
    refine ⟨?_, ?_, ?_, ?_⟩
    · by_cases hP : (strEndsWith col "tickets" && !(strIncludes col "resolved")) = true <;>
        simp [List.filter_cons, hP] <;> ring
    · by_cases hP : col = "client tickets resolved" <;>
        simp [List.filter_cons, hP] <;> ring
    · by_cases hP : col = "employee tickets resolved" <;>
        simp [List.filter_cons, hP] <;> ring
    · simp

theorem gsRowAcc_closed (r : List (String × String)) (cols : List String) :
    gsRowAcc r cols =
      ( ((cols.filter
          (fun col => strEndsWith col "tickets" && !(strIncludes col "resolved"))).map
            (cellNumOf r)).sum
      , ((cols.filter
          (fun col => decide (col = "client tickets resolved"))).map (cellNumOf r)).sum
      , ((cols.filter
          (fun col => decide (col = "employee tickets resolved"))).map (cellNumOf r)).sum
      , cols.map (fun col => (col, cellNumOf r col)) ) := by
  unfold gsRowAcc
  rw [gsRowAcc_foldl r cols 0 0 0 []]
  simp

theorem gsLoop_eq (numericCols : List String) :
    ∀ (norm : List (List (String × String))) (total cr er : Rat)
      (bd : List (String × List (String × Rat))),
      gsLoop numericCols norm (total, cr, er, bd) =
        ( total + (norm.map (fun r => ((numericCols.filter
            (fun col => strEndsWith col "tickets" && !(strIncludes col "resolved"))).map
              (cellNumOf r)).sum)).sum
        , cr + (norm.map (fun r => ((numericCols.filter
            (fun col => decide (col = "client tickets resolved"))).map (cellNumOf r)).sum)).sum
        , er + (norm.map (fun r => ((numericCols.filter
            (fun col => decide (col = "employee tickets resolved"))).map (cellNumOf r)).sum)).sum
        , bd ++ norm.map (fun r => (jsOr (recGet r "group name") "Group",
            numericCols.map (fun col => (col, cellNumOf r col)))) ) := by
  intro norm
  induction norm with
  | nil =>
    intro total cr er bd
    simp [gsLoop]
  | cons r rest ih =>
    intro total cr er bd
    simp only [gsLoop, gsRowAcc_closed]
    rw [ih]
    simp only [Prod.mk.injEq, List.map_cons, List.sum_cons]
    refine ⟨by ring, by ring, by ring, by simp⟩

theorem filter_cand_tickets (hk : List String) :
    ((hk.filter (fun k => strEndsWith k "tickets" || strEndsWith k "resolved")).filter
        (fun col => strEndsWith col "tickets" && !(strIncludes col "resolved")))
      = hk.filter (fun col => strEndsWith col "tickets" && !(strIncludes col "resolved")) := by
  rw [List.filter_filter]
  apply List.filter_congr
  intro a _
  cases hT : strEndsWith a "tickets" <;> simp [hT]

theorem filter_cand_key (hk : List String) (key : String)
    (hkey : strEndsWith key "resolved" = true) :
    ((hk.filter (fun k => strEndsWith k "tickets" || strEndsWith k "resolved")).filter
        (fun col => decide (col = key)))
      = hk.filter (fun col => decide (col = key)) := by
  rw [List.filter_filter]
  apply List.filter_congr
  intro a _
  by_cases ha : a = key
  · subst ha
    simp [hkey]
  · simp [ha]

/-! ## Claim theorems: the GroupSummary reduction (C3) -/

set_option maxRecDepth 10000 in
set_option maxHeartbeats 1000000 in
/-- C3: for every GroupSummary import, the total is the sum over all data
rows of every column whose header ends in "tickets" but does not contain
"resolved"; `clientResolved` and `employeeResolved` are the sums of the
"client tickets resolved" and "employee tickets resolved" columns;
`completed` is their sum; one breakdown entry is produced per row,
labelled with the group-name cell (or "Group" when blank), mapping each
candidate column (header ending in "tickets" or "resolved") to its
numeric value (comma separators stripped, unparseable cells counting 0);
and the sample one-row import yields total=15, clientResolved=4,
employeeResolved=8, completed=12. -/
theorem c3_group_summary (prior : Option TicketSummary) (now : String)
    (hk : List String) (norm : List (List (String × String))) :
    (importGroupSummary prior now hk norm).total
      = (norm.map (fun r => ((hk.filter
          (fun col => strEndsWith col "tickets" && !(strIncludes col "resolved"))).map
            (cellNumOf r)).sum)).sum ∧
    (importGroupSummary prior now hk norm).clientResolved
      = some ((norm.map (fun r => ((hk.filter
          (fun col => decide (col = "client tickets resolved"))).map (cellNumOf r)).sum)).sum) ∧
    (importGroupSummary prior now hk norm).employeeResolved
      = some ((norm.map (fun r => ((hk.filter
          (fun col => decide (col = "employee tickets resolved"))).map (cellNumOf r)).sum)).sum) ∧
    (importGroupSummary prior now hk norm).completed
      = (norm.map (fun r => ((hk.filter
          (fun col => decide (col = "client tickets resolved"))).map (cellNumOf r)).sum)).sum
        + (norm.map (fun r => ((hk.filter
          (fun col => decide (col = "employee tickets resolved"))).map (cellNumOf r)).sum)).sum ∧
    (importGroupSummary prior now hk norm).breakdown
      = some (norm.map (fun r => (jsOr (recGet r "group name") "Group",
          (hk.filter (fun k => strEndsWith k "tickets" || strEndsWith k "resolved")).map
            (fun col => (col, cellNumOf r col))))) ∧
    (∀ st : Store,
      ((importTicketsCsv st now
          "group name, employee tickets, client tickets, employee tickets resolved, client tickets resolved\n\"IT\",10,5,8,4").tickets.map
        (fun tt => (tt.total, tt.clientResolved, tt.employeeResolved, tt.completed)))
        = some (15, some 4, some 8, 12)) := by
  have hloop := gsLoop_eq
    (hk.filter (fun k => strEndsWith k "tickets" || strEndsWith k "resolved")) norm 0 0 0 []
  refine ⟨?_, ?_, ?_, ?_, ?_, ?_⟩
  · show (gsLoop (hk.filter
        (fun k => strEndsWith k "tickets" || strEndsWith k "resolved")) norm (0, 0, 0, [])).1 = _
    rw [hloop, filter_cand_tickets]
    simp
  · show some (gsLoop (hk.filter
        (fun k => strEndsWith k "tickets" || strEndsWith k "resolved")) norm (0, 0, 0, [])).2.1 = _
    rw [hloop, filter_cand_key hk "client tickets resolved" (by decide)]
    simp
  · show some (gsLoop (hk.filter
        (fun k => strEndsWith k "tickets" || strEndsWith k "resolved")) norm (0, 0, 0, [])).2.2.1 = _
    rw [hloop, filter_cand_key hk "employee tickets resolved" (by decide)]
    simp
  · show (gsLoop (hk.filter
        (fun k => strEndsWith k "tickets" || strEndsWith k "resolved")) norm (0, 0, 0, [])).2.1
      + (gsLoop (hk.filter
        (fun k => strEndsWith k "tickets" || strEndsWith k "resolved")) norm (0, 0, 0, [])).2.2.1 = _
    rw [hloop, filter_cand_key hk "client tickets resolved" (by decide),
      filter_cand_key hk "employee tickets resolved" (by decide)]
    simp
  · show some (gsLoop (hk.filter
        (fun k => strEndsWith k "tickets" || strEndsWith k "resolved")) norm (0, 0, 0, [])).2.2.2 = _
    rw [hloop]
    simp
  · intro st
    have hred : importTicketsCsv st now
        "group name, employee tickets, client tickets, employee tickets resolved, client tickets resolved\n\"IT\",10,5,8,4" =
        { st with tickets := some (importGroupSummary st.tickets now
            (headerKeysOf (normCsv
              "group name, employee tickets, client tickets, employee tickets resolved, client tickets resolved\n\"IT\",10,5,8,4"))
            (normCsv
              "group name, employee tickets, client tickets, employee tickets resolved, client tickets resolved\n\"IT\",10,5,8,4")) } := by
      with_unfolding_all rfl
    rw [hred]
    with_unfolding_all rfl

/-- C3 witness: the sums at the concrete one-row import. -/
theorem c3_group_summary_witness :
    (importGroupSummary none "NOW"
        ["group name", "employee tickets", "client tickets",
         "employee tickets resolved", "client tickets resolved"]
        [[("group name", "IT"), ("employee tickets", "10"), ("client tickets", "5"),
          ("employee tickets resolved", "8"), ("client tickets resolved", "4")]]).total
      = ([[("group name", "IT"), ("employee tickets", "10"), ("client tickets", "5"),
          ("employee tickets resolved", "8"), ("client tickets resolved", "4")]].map
          (fun r => ((["group name", "employee tickets", "client tickets",
            "employee tickets resolved", "client tickets resolved"].filter
              (fun col => strEndsWith col "tickets" && !(strIncludes col "resolved"))).map
                (cellNumOf r)).sum)).sum ∧
    ((importTicketsCsv { profiles := [], contracts := [], projects := [], tickets := none }
        "NOW"
        "group name, employee tickets, client tickets, employee tickets resolved, client tickets resolved\n\"IT\",10,5,8,4").tickets.map
      (fun tt => (tt.total, tt.clientResolved, tt.employeeResolved, tt.completed)))
      = some (15, some 4, some 8, 12) := by
  have h := c3_group_summary none "NOW"
    ["group name", "employee tickets", "client tickets",
     "employee tickets resolved", "client tickets resolved"]
    [[("group name", "IT"), ("employee tickets", "10"), ("client tickets", "5"),
      ("employee tickets resolved", "8"), ("client tickets resolved", "4")]]
  exact ⟨h.1, h.2.2.2.2.2
    { profiles := [], contracts := [], projects := [], tickets := none }⟩

/-! ## Lemmas: format detection -/

theorem hasStatusHeaders_iff (hk : List String) :
    hasStatusHeaders hk = true ↔
      ("status" ∈ hk ∨ "ticket status" ∈ hk ∨ "ticket_status" ∈ hk) := by
  simp [hasStatusHeaders, List.contains, List.elem_iff, or_assoc]

theorem isGroupSummaryHeaders_iff (hk : List String) :
    isGroupSummaryHeaders hk = true ↔
      ("group name" ∈ hk ∧
        ("employee tickets" ∈ hk ∨ "client tickets" ∈ hk ∨ "internal tickets" ∈ hk)) := by
  simp [isGroupSummaryHeaders, List.contains, List.elem_iff, or_assoc]

theorem bool_eq_false_of_not {b : Bool} (h : ¬b = true) : b = false := by
  cases b
  · rfl
  · exact absurd rfl h

theorem specDetectFormat_eq (hk : List String) :
    (specDetectFormat hk = SourceFormat.ticketList ↔ hasStatusHeaders hk = true) ∧
    (specDetectFormat hk = SourceFormat.groupSummary ↔
      (hasStatusHeaders hk = false ∧ isGroupSummaryHeaders hk = true)) ∧
    (specDetectFormat hk = SourceFormat.unknown ↔
      (hasStatusHeaders hk = false ∧ isGroupSummaryHeaders hk = false)) := by
  unfold specDetectFormat
  by_cases h1 : ("status" ∈ hk ∨ "ticket status" ∈ hk ∨ "ticket_status" ∈ hk)
  · have hb : hasStatusHeaders hk = true := (hasStatusHeaders_iff hk).mpr h1
    simp [h1, hb]
  · have hb : hasStatusHeaders hk = false :=
      bool_eq_false_of_not (fun hc => h1 ((hasStatusHeaders_iff hk).mp hc))
    by_cases h2 : ("group name" ∈ hk ∧
        ("employee tickets" ∈ hk ∨ "client tickets" ∈ hk ∨ "internal tickets" ∈ hk))
    · have hg : isGroupSummaryHeaders hk = true := (isGroupSummaryHeaders_iff hk).mpr h2
      simp [h1, h2, hb, hg]
    · have hg : isGroupSummaryHeaders hk = false :=
        bool_eq_false_of_not (fun hc => h2 ((isGroupSummaryHeaders_iff hk).mp hc))
      simp [h1, h2, hb, hg]

theorem importTicketsCsv_tickets (store : Store) (now text : String) :
    (importTicketsCsv store now text).tickets =
      some (if hasStatusHeaders (headerKeysOf (normCsv text)) then
          importTicketList store.tickets now (normCsv text)
        else if isGroupSummaryHeaders (headerKeysOf (normCsv text)) then
          importGroupSummary store.tickets now (headerKeysOf (normCsv text)) (normCsv text)
        else importUnknown store.tickets now (normCsv text)) := rfl

/-! ## Claim theorems: format detection (C4) -/

/-- C4: format detection follows the fixed priority — a status-like header
makes the import TicketList, else group-name plus an employee/client/
internal tickets header makes it GroupSummary, else the import is Unknown
and produces a summary whose total is the data-row count with the
completed, open and pending counters preserved from the prior summary
(defaulting to 0) and no source-format tag; the headers foo,bar with 3
data rows give sourceFormat Unknown with total 3. -/
theorem c4_format_detection (store : Store) (now text : String) :
    (∀ t, (importTicketsCsv store now text).tickets = some t →
      t.meta = (match specDetectFormat (headerKeysOf (normCsv text)) with
        | SourceFormat.ticketList => some "ticket-list"
        | SourceFormat.groupSummary => some "group-summary"
        | SourceFormat.unknown => none)) ∧
    (specDetectFormat (headerKeysOf (normCsv text)) = SourceFormat.unknown →
      (importTicketsCsv store now text).tickets = some
        { total := ((normCsv text).length : Rat)
        , completed := (store.tickets.map TicketSummary.completed).getD 0
        , openCount := (store.tickets.map TicketSummary.openCount).getD 0
        , pending := (store.tickets.map TicketSummary.pending).getD 0
        , lastImportedAt := some now
        , meta := none
        , breakdown := none
        , clientResolved := none
        , employeeResolved := none }) ∧
    ((importTicketsCsv store now "foo,bar\n1,2\n3,4\n5,6").tickets.map
        (fun tt => (tt.total, tt.meta))) = some (3, none) := by
  have hspec := specDetectFormat_eq (headerKeysOf (normCsv text))
  refine ⟨?_, ?_, ?_⟩
  · intro t ht
    rw [importTicketsCsv_tickets] at ht
    injection ht with ht
    cases hS : hasStatusHeaders (headerKeysOf (normCsv text)) with
    | true =>
      rw [hspec.1.mpr hS]
      rw [hS] at ht
      simp at ht
      rw [← ht]
      rfl
    | false =>
      rw [hS] at ht
      simp only [Bool.false_eq_true, if_false] at ht
      cases hG : isGroupSummaryHeaders (headerKeysOf (normCsv text)) with
      | true =>
        rw [hspec.2.1.mpr ⟨hS, hG⟩]
        rw [hG] at ht
        simp at ht
        rw [← ht]
        rfl
      | false =>
        rw [hspec.2.2.mpr ⟨hS, hG⟩]
        rw [hG] at ht
        simp at ht
        rw [← ht]
        rfl
  · intro hu
    obtain ⟨hS, hG⟩ := hspec.2.2.mp hu
    rw [importTicketsCsv_tickets]
    simp only [hS, hG, Bool.false_eq_true, if_false]
    rfl
  · have hred : importTicketsCsv store now "foo,bar\n1,2\n3,4\n5,6" =
        { store with tickets := some (importUnknown store.tickets now
            (normCsv "foo,bar\n1,2\n3,4\n5,6")) } := by
      with_unfolding_all rfl
    rw [hred]
    with_unfolding_all rfl

/-- C4 witness: the Unknown-branch characterization at the foo,bar import
with an empty prior. -/
theorem c4_format_detection_witness :
    (importTicketsCsv { profiles := [], contracts := [], projects := [], tickets := none }
        "NOW" "foo,bar\n1,2\n3,4\n5,6").tickets = some
      { total := ((normCsv "foo,bar\n1,2\n3,4\n5,6").length : Rat)
      , completed := 0, openCount := 0, pending := 0
      , lastImportedAt := some "NOW"
      , meta := none, breakdown := none
      , clientResolved := none, employeeResolved := none } ∧
    ((importTicketsCsv { profiles := [], contracts := [], projects := [], tickets := none }
        "NOW" "foo,bar\n1,2\n3,4\n5,6").tickets.map
      (fun tt => (tt.total, tt.meta))) = some (3, none) := by
  have h := c4_format_detection
    { profiles := [], contracts := [], projects := [], tickets := none }
    "NOW" "foo,bar\n1,2\n3,4\n5,6"
  exact ⟨h.2.1 (by with_unfolding_all decide), h.2.2⟩

/-! ## Claim theorems: the GroupSummary frame (C10) -/

/-- C10: a GroupSummary import leaves the open and pending counters of the
prior summary unchanged (defaulting to 0 when there is none) and
overwrites only total, completed, clientResolved, employeeResolved,
breakdown, lastImportedAt and the source-format tag — formally, those
seven fields do not depend on the prior summary at all, while open and
pending are copied from it. -/
theorem c10_group_summary_frame (store : Store) (now text : String)
    (hS : hasStatusHeaders (headerKeysOf (normCsv text)) = false)
    (hG : isGroupSummaryHeaders (headerKeysOf (normCsv text)) = true) :
    (importTicketsCsv store now text).tickets
      = some (importGroupSummary store.tickets now
          (headerKeysOf (normCsv text)) (normCsv text)) ∧
    (∀ (prior : Option TicketSummary) (hk : List String)
        (norm : List (List (String × String))),
      (importGroupSummary prior now hk norm).openCount
        = (prior.map TicketSummary.openCount).getD 0 ∧
      (importGroupSummary prior now hk norm).pending
        = (prior.map TicketSummary.pending).getD 0 ∧
      (importGroupSummary prior now hk norm).lastImportedAt = some now ∧
      (importGroupSummary prior now hk norm).meta = some "group-summary") ∧
    (∀ (prior1 prior2 : Option TicketSummary) (hk : List String)
        (norm : List (List (String × String))),
      (importGroupSummary prior1 now hk norm).total
        = (importGroupSummary prior2 now hk norm).total ∧
      (importGroupSummary prior1 now hk norm).completed
        = (importGroupSummary prior2 now hk norm).completed ∧
      (importGroupSummary prior1 now hk norm).clientResolved
        = (importGroupSummary prior2 now hk norm).clientResolved ∧
      (importGroupSummary prior1 now hk norm).employeeResolved
        = (importGroupSummary prior2 now hk norm).employeeResolved ∧
      (importGroupSummary prior1 now hk norm).breakdown
        = (importGroupSummary prior2 now hk norm).breakdown) := by
  refine ⟨?_, ?_, ?_⟩
  · rw [importTicketsCsv_tickets]
    simp only [hS, hG, Bool.false_eq_true, if_false, if_true]
  · intro prior hk norm
    exact ⟨rfl, rfl, rfl, rfl⟩
  · intro prior1 prior2 hk norm
    exact ⟨rfl, rfl, rfl, rfl, rfl⟩

set_option maxRecDepth 10000 in
set_option maxHeartbeats 1000000 in
/-- C10 witness: the frame at the concrete GroupSummary import with a
non-trivial prior summary whose open and pending counters survive. -/
theorem c10_group_summary_frame_witness :
    (importTicketsCsv
        { profiles := [], contracts := [], projects := [],
          tickets := some { total := 99, completed := 7, openCount := 3, pending := 4,
                            lastImportedAt := none, meta := none, breakdown := none,
                            clientResolved := none, employeeResolved := none } }
        "NOW"
        "group name, employee tickets, client tickets, employee tickets resolved, client tickets resolved\n\"IT\",10,5,8,4").tickets
      = some (importGroupSummary
          (some { total := 99, completed := 7, openCount := 3, pending := 4,
                  lastImportedAt := none, meta := none, breakdown := none,
                  clientResolved := none, employeeResolved := none })
          "NOW"
          (headerKeysOf (normCsv
            "group name, employee tickets, client tickets, employee tickets resolved, client tickets resolved\n\"IT\",10,5,8,4"))
          (normCsv
            "group name, employee tickets, client tickets, employee tickets resolved, client tickets resolved\n\"IT\",10,5,8,4")) ∧
    (importGroupSummary
        (some { total := 99, completed := 7, openCount := 3, pending := 4,
                lastImportedAt := none, meta := none, breakdown := none,
                clientResolved := none, employeeResolved := none })
        "NOW" ["group name", "client tickets"] []).openCount = 3 := by
  have h := c10_group_summary_frame
    { profiles := [], contracts := [], projects := [],
      tickets := some { total := 99, completed := 7, openCount := 3, pending := 4,
                        lastImportedAt := none, meta := none, breakdown := none,
                        clientResolved := none, employeeResolved := none } }
    "NOW"
    "group name, employee tickets, client tickets, employee tickets resolved, client tickets resolved\n\"IT\",10,5,8,4"
    (by with_unfolding_all decide) (by with_unfolding_all decide)
  refine ⟨h.1, ?_⟩
  have h2 := (h.2.1 (some { total := 99, completed := 7, openCount := 3, pending := 4,
                            lastImportedAt := none, meta := none, breakdown := none,
                            clientResolved := none, employeeResolved := none })
    ["group name", "client tickets"] []).1
  rw [h2]
  rfl

end ITW
